import Mathlib

/-!
# Verification of the apitally-go aggregation-and-shipping pipeline

Shallow embedding of the core data structures and operations of the
apitally-go SDK (metric aggregators, request logger, sync client), together
with proofs of the testable properties stated in its specification.

Modelling conventions:
* Go maps are modelled as a support list of keys (insertion order) together
  with a total function giving each key's value; draining iterates the
  support list.
* Go `int`/`int64` are modelled as unbounded `Int` (byte sizes and counters
  stay far below 2^63 in all stated properties, so wrap-around never
  matters), `float64` response times as `ℚ`.
* Strings are Lean `String`s; Go byte-length coincides with the model for
  the ASCII data used in all concrete witnesses.
-/

namespace Apitally

/-- Map key for request metrics, from `RequestKey` in
`internal/request_counter.go`. -/
structure RequestKey where
  consumer : String
  method : String
  path : String
  statusCode : Int
deriving DecidableEq, Repr

/-- Aggregated request data, from `RequestsItem` in
`internal/request_counter.go`.  The three histogram maps are modelled as
total functions from bin to count (absent bin = 0). -/
structure RequestsItem where
  consumer : String
  method : String
  path : String
  statusCode : Int
  requestCount : Nat
  requestSizeSum : Int
  responseSizeSum : Int
  responseTimes : Int → Nat
  requestSizes : Int → Nat
  responseSizes : Int → Nat

/-- The dimension tuple of a drained item. -/
def RequestsItem.key (it : RequestsItem) : RequestKey :=
  ⟨it.consumer, it.method, it.path, it.statusCode⟩

/-- State of `RequestCounter` from `internal/request_counter.go`: the six
maps share one key set, kept here as the explicit support list `keys`. -/
structure RequestCounter where
  keys : List RequestKey
  requestCounts : RequestKey → Nat
  requestSizeSums : RequestKey → Int
  responseSizeSums : RequestKey → Int
  responseTimes : RequestKey → Int → Nat
  requestSizes : RequestKey → Int → Nat
  responseSizes : RequestKey → Int → Nat

/-- `NewRequestCounter`: all maps empty. -/
def NewRequestCounter : RequestCounter where
  keys := []
  requestCounts := fun _ => 0
  requestSizeSums := fun _ => 0
  responseSizeSums := fun _ => 0
  responseTimes := fun _ _ => 0
  requestSizes := fun _ _ => 0
  responseSizes := fun _ _ => 0

/-- Arguments of one `AddRequest` call. -/
structure AddCall where
  consumer : String
  method : String
  path : String
  statusCode : Int
  responseTime : ℚ
  requestSize : Int
  responseSize : Int
deriving DecidableEq

/-- The map key generated for an `AddRequest` call. -/
def AddCall.key (c : AddCall) : RequestKey :=
  ⟨c.consumer, c.method, c.path, c.statusCode⟩

/-- Response-time bin: `int(math.Floor(responseTime/10) * 10)`. -/
def rtBin (t : ℚ) : Int := ⌊t / 10⌋ * 10

/-- Size bin: `int(math.Floor(float64(size) / 1000))`; only evaluated for
`size ≥ 0`, where floor division and `Int` division agree. -/
def sizeKbBin (size : Int) : Int := size / 1000

/-- `RequestCounter.AddRequest` from `internal/request_counter.go` lines
52-90: increments the count for the key, bumps the response-time bin, and,
for each of request/response size that is `≥ 0`, adds it to the running sum
and bumps the corresponding 1KB-floor bin. -/
def addRequest (rc : RequestCounter) (c : AddCall) : RequestCounter where
  keys := if c.key ∈ rc.keys then rc.keys else rc.keys ++ [c.key]
  requestCounts := fun k =>
    if k = c.key then rc.requestCounts k + 1 else rc.requestCounts k
  requestSizeSums := fun k =>
    if k = c.key ∧ 0 ≤ c.requestSize then rc.requestSizeSums k + c.requestSize
    else rc.requestSizeSums k
  responseSizeSums := fun k =>
    if k = c.key ∧ 0 ≤ c.responseSize then rc.responseSizeSums k + c.responseSize
    else rc.responseSizeSums k
  responseTimes := fun k b =>
    if k = c.key ∧ b = rtBin c.responseTime then rc.responseTimes k b + 1
    else rc.responseTimes k b
  requestSizes := fun k b =>
    if k = c.key ∧ 0 ≤ c.requestSize ∧ b = sizeKbBin c.requestSize then
      rc.requestSizes k b + 1
    else rc.requestSizes k b
  responseSizes := fun k b =>
    if k = c.key ∧ 0 ≤ c.responseSize ∧ b = sizeKbBin c.responseSize then
      rc.responseSizes k b + 1
    else rc.responseSizes k b

/-- The drained item built for one stored key (body of the loop in
`GetAndResetRequests`). -/
def rcItem (rc : RequestCounter) (k : RequestKey) : RequestsItem where
  consumer := k.consumer
  method := k.method
  path := k.path
  statusCode := k.statusCode
  requestCount := rc.requestCounts k
  requestSizeSum := rc.requestSizeSums k
  responseSizeSum := rc.responseSizeSums k
  responseTimes := rc.responseTimes k
  requestSizes := rc.requestSizes k
  responseSizes := rc.responseSizes k

/-- `RequestCounter.GetAndResetRequests` from `internal/request_counter.go`
lines 93-136: one item per stored key, then all maps reset. -/
def getAndResetRequests (rc : RequestCounter) :
    List RequestsItem × RequestCounter :=
  (rc.keys.map (rcItem rc), NewRequestCounter)

/-- Invariant relating a `RequestCounter` state to the full history of
`AddRequest` calls that produced it. -/
structure RCTracks (calls : List AddCall) (rc : RequestCounter) : Prop where
  nodup : rc.keys.Nodup
  mem_keys : ∀ k, k ∈ rc.keys ↔ (calls.filter (fun c => decide (c.key = k))) ≠ []
  counts : ∀ k, rc.requestCounts k =
    (calls.filter (fun c => decide (c.key = k))).length
  rts : ∀ k b, rc.responseTimes k b =
    (calls.filter (fun c => decide (c.key = k ∧ rtBin c.responseTime = b))).length
  reqSums : ∀ k, rc.requestSizeSums k =
    ((calls.filter (fun c => decide (c.key = k ∧ 0 ≤ c.requestSize))).map
      AddCall.requestSize).sum
  respSums : ∀ k, rc.responseSizeSums k =
    ((calls.filter (fun c => decide (c.key = k ∧ 0 ≤ c.responseSize))).map
      AddCall.responseSize).sum
  reqSizes : ∀ k b, rc.requestSizes k b =
    (calls.filter (fun c =>
      decide (c.key = k ∧ 0 ≤ c.requestSize ∧ sizeKbBin c.requestSize = b))).length
  respSizes : ∀ k b, rc.responseSizes k b =
    (calls.filter (fun c =>
      decide (c.key = k ∧ 0 ≤ c.responseSize ∧ sizeKbBin c.responseSize = b))).length

theorem length_filter_append_one {α : Type} (p : α → Bool) (l : List α) (c : α) :
    ((l ++ [c]).filter p).length
      = (l.filter p).length + (if p c then 1 else 0) := by
  by_cases h : p c <;> simp [List.filter_append, List.filter_cons, h]

theorem sum_filter_append_one (p : AddCall → Bool) (l : List AddCall) (c : AddCall)
    (f : AddCall → Int) :
    (((l ++ [c]).filter p).map f).sum
      = ((l.filter p).map f).sum + (if p c then f c else 0) := by
  by_cases h : p c <;> simp [List.filter_append, List.filter_cons, h]

theorem filter_append_one_ne_nil {α : Type} (p : α → Bool) (l : List α) (c : α) :
    ((l ++ [c]).filter p ≠ []) ↔ (l.filter p ≠ [] ∨ p c) := by
  by_cases h : p c <;> simp [List.filter_append, List.filter_cons, h]

theorem rcTracks_nil : RCTracks [] NewRequestCounter := by
  constructor <;> simp [NewRequestCounter]

theorem rcTracks_step {calls : List AddCall} {rc : RequestCounter}
    (h : RCTracks calls rc) (c : AddCall) :
    RCTracks (calls ++ [c]) (addRequest rc c) := by
  constructor
  · show (if c.key ∈ rc.keys then rc.keys else rc.keys ++ [c.key]).Nodup
    by_cases hk : c.key ∈ rc.keys
    · simpa [hk] using h.nodup
    · simp [hk, List.nodup_append, h.nodup]
  · intro k
    show k ∈ (if c.key ∈ rc.keys then rc.keys else rc.keys ++ [c.key]) ↔ _
    rw [filter_append_one_ne_nil, ← h.mem_keys k]
    by_cases hk : c.key ∈ rc.keys
    · simp only [hk, if_true]
      constructor
      · exact fun hm => Or.inl hm
      · rintro (hm | hck)
        · exact hm
        · simpa [decide_eq_true_eq] using (of_decide_eq_true hck ▸ hk)
    · simp only [hk, if_false, List.mem_append, List.mem_singleton]
      constructor
      · rintro (hm | hke)
        · exact Or.inl hm
        · exact Or.inr (by simp [hke])
      · rintro (hm | hck)
        · exact Or.inl hm
        · exact Or.inr (of_decide_eq_true hck).symm
  · intro k
    show (if k = c.key then rc.requestCounts k + 1 else rc.requestCounts k) = _
    rw [length_filter_append_one]
    by_cases hk : k = c.key
    · subst hk; simp [h.counts c.key]
    · have hk' : ¬(c.key = k) := fun hh => hk hh.symm
      simp [hk, hk', h.counts k]
  · intro k b
    show (if k = c.key ∧ b = rtBin c.responseTime then rc.responseTimes k b + 1
          else rc.responseTimes k b) = _
    rw [length_filter_append_one]
    by_cases hk : k = c.key
    · subst hk
      by_cases hb : b = rtBin c.responseTime
      · subst hb; simp [h.rts c.key]
      · have hb' : ¬(rtBin c.responseTime = b) := fun hh => hb hh.symm
        simp [hb, hb', h.rts c.key]
    · have hk' : ¬(c.key = k) := fun hh => hk hh.symm
      simp [hk, hk', h.rts k]
  · intro k
    show (if k = c.key ∧ 0 ≤ c.requestSize then rc.requestSizeSums k + c.requestSize
          else rc.requestSizeSums k) = _
    rw [sum_filter_append_one]
    by_cases hk : k = c.key
    · subst hk
      by_cases hs : (0 : Int) ≤ c.requestSize
      · simp [hs, h.reqSums c.key]
      · simp [hs, h.reqSums c.key]
    · have hk' : ¬(c.key = k) := fun hh => hk hh.symm
      simp [hk, hk', h.reqSums k]
  · intro k
    show (if k = c.key ∧ 0 ≤ c.responseSize then rc.responseSizeSums k + c.responseSize
          else rc.responseSizeSums k) = _
    rw [sum_filter_append_one]
    by_cases hk : k = c.key
    · subst hk
      by_cases hs : (0 : Int) ≤ c.responseSize
      · simp [hs, h.respSums c.key]
      · simp [hs, h.respSums c.key]
    · have hk' : ¬(c.key = k) := fun hh => hk hh.symm
      simp [hk, hk', h.respSums k]
  · intro k b
    show (if k = c.key ∧ 0 ≤ c.requestSize ∧ b = sizeKbBin c.requestSize then
            rc.requestSizes k b + 1 else rc.requestSizes k b) = _
    rw [length_filter_append_one]
    by_cases hk : k = c.key
    · subst hk
      by_cases hs : (0 : Int) ≤ c.requestSize
      · by_cases hb : b = sizeKbBin c.requestSize
        · subst hb; simp [hs, h.reqSizes c.key]
        · have hb' : ¬(sizeKbBin c.requestSize = b) := fun hh => hb hh.symm
          simp [hs, hb, hb', h.reqSizes c.key]
      · simp [hs, h.reqSizes c.key]
    · have hk' : ¬(c.key = k) := fun hh => hk hh.symm
      simp [hk, hk', h.reqSizes k]
  · intro k b
    show (if k = c.key ∧ 0 ≤ c.responseSize ∧ b = sizeKbBin c.responseSize then
            rc.responseSizes k b + 1 else rc.responseSizes k b) = _
    rw [length_filter_append_one]
    by_cases hk : k = c.key
    · subst hk
      by_cases hs : (0 : Int) ≤ c.responseSize
      · by_cases hb : b = sizeKbBin c.responseSize
        · subst hb; simp [hs, h.respSizes c.key]
        · have hb' : ¬(sizeKbBin c.responseSize = b) := fun hh => hb hh.symm
          simp [hs, hb, hb', h.respSizes c.key]
      · simp [hs, h.respSizes c.key]
    · have hk' : ¬(c.key = k) := fun hh => hk hh.symm
      simp [hk, hk', h.respSizes k]

theorem rcTracks_foldl (calls : List AddCall) :
    ∀ (pre : List AddCall) (rc : RequestCounter), RCTracks pre rc →
      RCTracks (pre ++ calls) (calls.foldl addRequest rc) := by
  induction calls with
  | nil => intro pre rc h; simpa using h
  | cons c rest ih =>
      intro pre rc h
      have h2 := ih (pre ++ [c]) (addRequest rc c) (rcTracks_step h c)
      simpa using h2

theorem rcTracks_history (calls : List AddCall) :
    RCTracks calls (calls.foldl addRequest NewRequestCounter) := by
  simpa using rcTracks_foldl calls [] NewRequestCounter rcTracks_nil

theorem rcItem_key (rc : RequestCounter) (k : RequestKey) : (rcItem rc k).key = k :=
  rfl

theorem nodup_filter_eq_length {α : Type} [DecidableEq α] {l : List α}
    (h : l.Nodup) (k : α) :
    (l.filter (fun x => decide (x = k))).length = if k ∈ l then 1 else 0 := by
  induction l with
  | nil => simp
  | cons a as ih =>
      have ha : a ∉ as := (List.nodup_cons.mp h).1
      have has : as.Nodup := (List.nodup_cons.mp h).2
      by_cases hak : a = k
      · subst hak
        simp only [List.filter_cons, decide_eq_true_eq, if_pos rfl,
          List.mem_cons, true_or, if_true]
        simp [ih has, ha]
      · have hka : ¬(k = a) := fun hh => hak hh.symm
        simp only [List.filter_cons]
        simp [hak, hka, ih has]

theorem find?_map_key {l : List RequestKey} (k : RequestKey)
    (rc : RequestCounter) (hk : k ∈ l) :
    (l.map (rcItem rc)).find? (fun it => decide (it.key = k))
      = some (rcItem rc k) := by
  induction l with
  | nil => cases hk
  | cons a as ih =>
      by_cases hak : a = k
      · subst hak
        simp [List.find?_cons, rcItem_key]
      · have hk' : k ∈ as := by
          rcases List.mem_cons.mp hk with h1 | h1
          · exact absurd h1.symm hak
          · exact h1
        simp only [List.map_cons, List.find?_cons, rcItem_key, hak,
          decide_eq_true_eq, if_neg hak]
        simpa [rcItem_key, hak] using ih hk'

theorem find?_map_key_none {l : List RequestKey} (k : RequestKey)
    (rc : RequestCounter) (hk : k ∉ l) :
    (l.map (rcItem rc)).find? (fun it => decide (it.key = k)) = none := by
  rw [List.find?_eq_none]
  intro it hit
  rcases List.mem_map.mp hit with ⟨k', hk', rfl⟩
  simp only [rcItem_key, decide_eq_true_eq]
  exact fun hh => hk (hh ▸ hk')

/-- **C2**: after any finite sequence of `AddRequest` calls,
`GetAndResetRequests` yields exactly one item per distinct
(consumer, method, path, status) key that occurred; that item's
`RequestCount` is the number of calls with the key, its response-time
histogram counts calls per 10ms-floor bin, and its byte sums and 1KB-floor
size histograms account for exactly the calls with nonnegative sizes (a
negative size increments the count but contributes to no sum or
histogram). -/
theorem requestCounter_drain_correct (calls : List AddCall) (k : RequestKey) :
    (((getAndResetRequests (calls.foldl addRequest NewRequestCounter)).1.filter
        (fun it => decide (it.key = k))).length
      = if (calls.filter (fun c => decide (c.key = k))).length = 0 then 0 else 1)
  ∧ (match (getAndResetRequests (calls.foldl addRequest NewRequestCounter)).1.find?
        (fun it => decide (it.key = k)) with
     | none => (calls.filter (fun c => decide (c.key = k))) = []
     | some it =>
         it.requestCount = (calls.filter (fun c => decide (c.key = k))).length
         ∧ (∀ b : Int, it.responseTimes b =
             (calls.filter (fun c =>
               decide (c.key = k ∧ rtBin c.responseTime = b))).length)
         ∧ it.requestSizeSum =
             ((calls.filter (fun c => decide (c.key = k ∧ 0 ≤ c.requestSize))).map
               AddCall.requestSize).sum
         ∧ it.responseSizeSum =
             ((calls.filter (fun c => decide (c.key = k ∧ 0 ≤ c.responseSize))).map
               AddCall.responseSize).sum
         ∧ (∀ b : Int, it.requestSizes b =
             (calls.filter (fun c =>
               decide (c.key = k ∧ 0 ≤ c.requestSize ∧
                 sizeKbBin c.requestSize = b))).length)
         ∧ (∀ b : Int, it.responseSizes b =
             (calls.filter (fun c =>
               decide (c.key = k ∧ 0 ≤ c.responseSize ∧
                 sizeKbBin c.responseSize = b))).length)) := by
  have h := rcTracks_history calls
  constructor
  · show (((calls.foldl addRequest NewRequestCounter).keys.map
        (rcItem (calls.foldl addRequest NewRequestCounter))).filter
        (fun it => decide (it.key = k))).length = _
    rw [List.filter_map]
    have hcomp : ((fun it => decide (it.key = k)) ∘
        rcItem (calls.foldl addRequest NewRequestCounter))
        = fun k' => decide (k' = k) := by
      funext k'; simp [rcItem_key]
    rw [hcomp, List.length_map,
      nodup_filter_eq_length h.nodup k]
    by_cases hk : k ∈ (calls.foldl addRequest NewRequestCounter).keys
    · have : calls.filter (fun c => decide (c.key = k)) ≠ [] :=
        (h.mem_keys k).mp hk
      simp [hk, List.length_eq_zero, this]
    · have : calls.filter (fun c => decide (c.key = k)) = [] := by
        by_contra hne
        exact hk ((h.mem_keys k).mpr hne)
      simp [hk, List.length_eq_zero, this]
  · by_cases hk : k ∈ (calls.foldl addRequest NewRequestCounter).keys
    · show (match ((calls.foldl addRequest NewRequestCounter).keys.map
          (rcItem (calls.foldl addRequest NewRequestCounter))).find?
          (fun it => decide (it.key = k)) with
        | none => _ | some it => _ : Prop)
      rw [find?_map_key k _ hk]
      refine ⟨h.counts k, fun b => h.rts k b, h.reqSums k, h.respSums k,
        fun b => h.reqSizes k b, fun b => h.respSizes k b⟩
    · show (match ((calls.foldl addRequest NewRequestCounter).keys.map
          (rcItem (calls.foldl addRequest NewRequestCounter))).find?
          (fun it => decide (it.key = k)) with
        | none => _ | some it => _ : Prop)
      rw [find?_map_key_none k _ hk]
      by_contra hne
      exact hk ((h.mem_keys k).mpr hne)

/-! ## Server-error counter (`internal/server_error_counter.go`) -/

/-- Hex digit test, the character class `[0-9a-fA-F]`. -/
def isHexDigit (c : Char) : Bool :=
  decide (('0' ≤ c ∧ c ≤ '9') ∨ ('a' ≤ c ∧ c ≤ 'f') ∨ ('A' ≤ c ∧ c ≤ 'F'))

/-- Replacement pass of `hexAddressRegex` (`0x[0-9a-fA-F]+` → `"0x0"`),
scanning left to right with a greedy digit run, as Go's
`ReplaceAllString` does for this pattern.  The fuel argument (always at
least the input length, each step strictly shortens the input) only
forces structural termination. -/
def stripHexFuel : Nat → List Char → List Char
  | 0, l => l
  | fuel + 1, l =>
      match l with
      | '0' :: 'x' :: c :: rest =>
          if isHexDigit c then
            '0' :: 'x' :: '0' :: stripHexFuel fuel (rest.dropWhile isHexDigit)
          else
            '0' :: stripHexFuel fuel ('x' :: c :: rest)
      | c :: rest => c :: stripHexFuel fuel rest
      | [] => []

/-- Hex-address pass at full fuel. -/
def stripHexAux (l : List Char) : List Char := stripHexFuel l.length l

/-- Replacement pass of `goRoutineRegex` (`goroutine \d+` → `"goroutine 0"`),
fuelled the same way. -/
def stripGoroutineFuel : Nat → List Char → List Char
  | 0, l => l
  | fuel + 1, l =>
      match l with
      | 'g' :: 'o' :: 'r' :: 'o' :: 'u' :: 't' :: 'i' :: 'n' :: 'e' :: ' ' :: c :: rest =>
          if c.isDigit then
            ('g' :: 'o' :: 'r' :: 'o' :: 'u' :: 't' :: 'i' :: 'n' :: 'e' :: ' ' :: '0' :: [])
              ++ stripGoroutineFuel fuel (rest.dropWhile Char.isDigit)
          else
            'g' :: stripGoroutineFuel fuel
              ('o' :: 'r' :: 'o' :: 'u' :: 't' :: 'i' :: 'n' :: 'e' :: ' ' :: c :: rest)
      | c :: rest => c :: stripGoroutineFuel fuel rest
      | [] => []

/-- Goroutine-id pass at full fuel. -/
def stripGoroutineAux (l : List Char) : List Char := stripGoroutineFuel l.length l

/-- `stripStackTraceForHashing` from `internal/server_error_counter.go` lines
147-151: hex addresses become `0x0`, goroutine ids become `goroutine 0`. -/
def stripStackTraceForHashing (s : String) : String :=
  String.mk (stripGoroutineAux (stripHexAux s.data))

/-- ASCII upper-casing of a string, `strings.ToUpper` for the data in use. -/
def toUpperStr (s : String) : String := String.mk (s.data.map Char.toUpper)

/-- `maxMsgLength` from `internal/server_error_counter.go`. -/
def maxMsgLength : Nat := 2048

/-- `maxStacktraceLength` from `internal/server_error_counter.go`. -/
def maxStacktraceLength : Nat := 65536

/-- `truncateExceptionMessage`: hard cut with a trailing marker. -/
def truncateExceptionMessage (msg : String) : String :=
  if msg.length ≤ maxMsgLength then msg
  else String.mk (msg.data.take (maxMsgLength - "... (truncated)".length))
    ++ "... (truncated)"

/-- Line-accumulation loop of `truncateExceptionStackTrace`. -/
def stackTruncLoop (cutoff : Nat) : List String → Nat → List String → List String
  | [], _, acc => acc
  | line :: rest, len, acc =>
      if len + line.length + 1 > cutoff then acc ++ ["... (truncated) ..."]
      else stackTruncLoop cutoff rest (len + line.length + 1) (acc ++ [line])

/-- `truncateExceptionStackTrace` from `internal/server_error_counter.go`
lines 124-145: trims, drops lines 1-4 (the instrumentation frames) when
there are more than 5 lines, then accumulates whole lines up to the cutoff,
ending with a truncation marker when it stops early. -/
def truncateExceptionStackTrace (stackTrace : String) : String :=
  let cutoff := maxStacktraceLength - "... (truncated) ...".length
  let lines := stackTrace.trim.splitOn "\n"
  let lines := if lines.length > 5 then lines.take 1 ++ lines.drop 5 else lines
  String.intercalate "\n" (stackTruncLoop cutoff lines 0 [])

/-- Arguments of one `AddServerError` call; the Go `error` value is
represented by its reflected type string and its message. -/
structure ErrorCall where
  consumer : String
  method : String
  path : String
  errorType : String
  errorMessage : String
  stackTrace : String
deriving DecidableEq, Repr

/-- The MD5 preimage built in `AddServerError` lines 54-60.  MD5 itself is
modelled as injective, so this string serves as the map key. -/
def hashInput (c : ErrorCall) : String :=
  c.consumer ++ "|" ++ toUpperStr c.method ++ "|" ++ c.path ++ "|" ++ c.errorType
    ++ "|" ++ c.errorMessage ++ "|" ++ stripStackTraceForHashing c.stackTrace

/-- Aggregated server-error data, from `ServerErrorsItem`. -/
structure ServerErrorsItem where
  consumer : String
  method : String
  path : String
  errType : String
  msg : String
  stackTrace : String
  errorCount : Nat
deriving DecidableEq, Repr, Inhabited

/-- The details stored on first occurrence (`AddServerError` lines 68-77),
with `errorCount` still zero as in the Go struct literal. -/
def mkErrorDetails (c : ErrorCall) : ServerErrorsItem where
  consumer := c.consumer
  method := c.method
  path := c.path
  errType := c.errorType
  msg := truncateExceptionMessage c.errorMessage
  stackTrace := truncateExceptionStackTrace c.stackTrace
  errorCount := 0

/-- State of `ServerErrorCounter`: `errorCounts` and `errorDetails` share
the same key set, kept as the support list `keys`. -/
structure ServerErrorCounter where
  keys : List String
  errorCounts : String → Nat
  errorDetails : String → Option ServerErrorsItem

/-- `NewServerErrorCounter`. -/
def NewServerErrorCounter : ServerErrorCounter where
  keys := []
  errorCounts := fun _ => 0
  errorDetails := fun _ => none

/-- `ServerErrorCounter.AddServerError` lines 49-81: stores the truncated
details on first occurrence of the hash key and increments the count. -/
def addServerError (sc : ServerErrorCounter) (c : ErrorCall) : ServerErrorCounter where
  keys := if hashInput c ∈ sc.keys then sc.keys else sc.keys ++ [hashInput c]
  errorCounts := fun k =>
    if k = hashInput c then sc.errorCounts k + 1 else sc.errorCounts k
  errorDetails := fun k =>
    if k = hashInput c then
      match sc.errorDetails k with
      | none => some (mkErrorDetails c)
      | some d => some d
    else sc.errorDetails k

/-- `ServerErrorCounter.GetAndResetServerErrors` lines 84-103: emits each
stored detail with its final count, then clears all maps. -/
def getAndResetServerErrors (sc : ServerErrorCounter) :
    List ServerErrorsItem × ServerErrorCounter :=
  (sc.keys.filterMap (fun k =>
    match sc.errorDetails k with
    | some d => some { d with errorCount := sc.errorCounts k }
    | none => none),
   NewServerErrorCounter)

/-- First-occurrence-ordered list of distinct hash keys of a call history. -/
def distinctErrorKeys (calls : List ErrorCall) : List String :=
  calls.foldl (fun acc c =>
    if hashInput c ∈ acc then acc else acc ++ [hashInput c]) []

/-- The details the counter should hold for a key, per the call history. -/
def expectedDetails (calls : List ErrorCall) (k : String) : Option ServerErrorsItem :=
  match calls.filter (fun c => decide (hashInput c = k)) with
  | [] => none
  | first :: _ => some (mkErrorDetails first)

/-- Invariant relating a `ServerErrorCounter` state to its call history. -/
structure SETracks (calls : List ErrorCall) (sc : ServerErrorCounter) : Prop where
  keys_eq : sc.keys = distinctErrorKeys calls
  counts : ∀ k, sc.errorCounts k =
    (calls.filter (fun c => decide (hashInput c = k))).length
  details : ∀ k, sc.errorDetails k = expectedDetails calls k

theorem seTracks_nil : SETracks [] NewServerErrorCounter := by
  constructor <;> simp [NewServerErrorCounter, distinctErrorKeys, expectedDetails]

theorem distinctErrorKeys_append_one (calls : List ErrorCall) (c : ErrorCall) :
    distinctErrorKeys (calls ++ [c])
      = (if hashInput c ∈ distinctErrorKeys calls then distinctErrorKeys calls
         else distinctErrorKeys calls ++ [hashInput c]) := by
  simp [distinctErrorKeys, List.foldl_append]

theorem seTracks_step {calls : List ErrorCall} {sc : ServerErrorCounter}
    (h : SETracks calls sc) (c : ErrorCall) :
    SETracks (calls ++ [c]) (addServerError sc c) := by
  constructor
  · show (if hashInput c ∈ sc.keys then sc.keys else sc.keys ++ [hashInput c]) = _
    rw [distinctErrorKeys_append_one, h.keys_eq]
  · intro k
    show (if k = hashInput c then sc.errorCounts k + 1 else sc.errorCounts k) = _
    rw [length_filter_append_one]
    by_cases hk : k = hashInput c
    · subst hk; simp [h.counts (hashInput c)]
    · have hk' : ¬(hashInput c = k) := fun hh => hk hh.symm
      simp [hk, hk', h.counts k]
  · intro k
    show (if k = hashInput c then
        match sc.errorDetails k with
        | none => some (mkErrorDetails c)
        | some d => some d
      else sc.errorDetails k) = _
    by_cases hk : k = hashInput c
    · subst hk
      rw [h.details (hashInput c)]
      unfold expectedDetails
      rw [List.filter_append]
      cases hfil : calls.filter (fun c' => decide (hashInput c' = hashInput c)) with
      | nil => simp [List.filter_cons]
      | cons f rest => simp [List.filter_cons]
    · have hk' : ¬(hashInput c = k) := fun hh => hk hh.symm
      rw [h.details k]
      unfold expectedDetails
      rw [List.filter_append]
      simp [List.filter_cons, hk, hk']

theorem seTracks_foldl (calls : List ErrorCall) :
    ∀ (pre : List ErrorCall) (sc : ServerErrorCounter), SETracks pre sc →
      SETracks (pre ++ calls) (calls.foldl addServerError sc) := by
  induction calls with
  | nil => intro pre sc h; simpa using h
  | cons c rest ih =>
      intro pre sc h
      simpa using ih (pre ++ [c]) (addServerError sc c) (seTracks_step h c)

theorem seTracks_history (calls : List ErrorCall) :
    SETracks calls (calls.foldl addServerError NewServerErrorCounter) := by
  simpa using seTracks_foldl calls [] NewServerErrorCounter seTracks_nil

theorem mem_distinctErrorKeys {calls : List ErrorCall} {k : String} :
    k ∈ distinctErrorKeys calls ↔
      calls.filter (fun c => decide (hashInput c = k)) ≠ [] := by
  induction calls using List.reverseRecOn with
  | nil => simp [distinctErrorKeys]
  | append_singleton l c ih =>
      rw [distinctErrorKeys_append_one, filter_append_one_ne_nil, ← ih]
      by_cases hc : hashInput c ∈ distinctErrorKeys l
      · simp only [hc, if_true]
        constructor
        · exact fun hm => Or.inl hm
        · rintro (hm | he)
          · exact hm
          · exact (of_decide_eq_true he) ▸ hc
      · simp only [hc, if_false, List.mem_append, List.mem_singleton]
        constructor
        · rintro (hm | he)
          · exact Or.inl hm
          · exact Or.inr (by simp [he])
        · rintro (hm | he)
          · exact Or.inl hm
          · exact Or.inr (of_decide_eq_true he).symm

/-- **C3 (amended)**: the drained server-error list has exactly one entry
per distinct hash input `consumer|METHOD|path|type|message|normalizedStack`
(in first-occurrence order); each entry's `ErrorCount` is the number of
calls with that hash input and its retained details are the truncated
details of the first such call.  Aggregation is governed by equality of
the joined hash-input string, not by fieldwise agreement. -/
theorem serverErrorCounter_drain_correct (calls : List ErrorCall) :
    (getAndResetServerErrors (calls.foldl addServerError NewServerErrorCounter)).1
      = (distinctErrorKeys calls).map (fun k =>
          match calls.filter (fun c => decide (hashInput c = k)) with
          | [] => default
          | first :: _ =>
              { mkErrorDetails first with
                errorCount :=
                  (calls.filter (fun c => decide (hashInput c = k))).length }) := by
  have h := seTracks_history calls
  show (calls.foldl addServerError NewServerErrorCounter).keys.filterMap _ = _
  rw [h.keys_eq, List.filterMap_eq_map_iff_forall_eq_some.mpr]
  intro k hk
  rw [h.details k]
  have hne := mem_distinctErrorKeys.mp hk
  unfold expectedDetails
  cases hfil : calls.filter (fun c => decide (hashInput c = k)) with
  | nil => exact absurd hfil hne
  | cons f rest => simp [h.counts k, hfil]

/-- First delimiter-collision call: consumer `a|B`, empty method, path `p`. -/
def collisionCall1 : ErrorCall := ⟨"a|B", "", "p", "t", "m", "s"⟩

/-- Second delimiter-collision call: consumer `a`, method `b`, path `|p`. -/
def collisionCall2 : ErrorCall := ⟨"a", "b", "|p", "t", "m", "s"⟩

/-- **C3 counterexample**: two `AddServerError` calls that disagree on
consumer (and method and path) are nevertheless aggregated into a single
entry with count 2, because their `|`-joined hash inputs coincide; so
"aggregated iff the fields agree" fails in the only-if direction. -/
theorem serverError_delimiter_collision :
    collisionCall1.consumer ≠ collisionCall2.consumer
    ∧ hashInput collisionCall1 = hashInput collisionCall2
    ∧ ((getAndResetServerErrors
        ([collisionCall1, collisionCall2].foldl addServerError
          NewServerErrorCounter)).1.map
        (fun it => (it.consumer, it.errorCount))) = [("a|B", 2)] := by
  refine ⟨by decide, by decide, ?_⟩
  decide

/-! ## Consumer registry (`consumer_registry.go`) -/

/-- A consumer record, from `common.Consumer`. -/
structure Consumer where
  identifier : String
  name : String
  group : String
deriving DecidableEq, Repr

/-- State of `ConsumerRegistry`: the stored-record map (support `ids` plus
lookup function) and the dirty-identifier set `updated` (kept as a
duplicate-free list). -/
structure ConsumerRegistry where
  ids : List String
  consumers : String → Option Consumer
  updated : List String

/-- `NewConsumerRegistry`. -/
def NewConsumerRegistry : ConsumerRegistry where
  ids := []
  consumers := fun _ => none
  updated := []

/-- Whether the Go update condition for the name fires
(`consumer.Name != "" && (existing.Name == "" || consumer.Name != existing.Name)`). -/
def nameChangeCond (existing c : Consumer) : Prop :=
  c.name ≠ "" ∧ (existing.name = "" ∨ c.name ≠ existing.name)

/-- Whether the Go update condition for the group fires. -/
def groupChangeCond (existing c : Consumer) : Prop :=
  c.group ≠ "" ∧ (existing.group = "" ∨ c.group ≠ existing.group)

instance (existing c : Consumer) : Decidable (nameChangeCond existing c) := by
  unfold nameChangeCond; infer_instance

instance (existing c : Consumer) : Decidable (groupChangeCond existing c) := by
  unfold groupChangeCond; infer_instance

/-- The record stored after updating `existing` with `c`. -/
def storedRecord (existing c : Consumer) : Consumer where
  identifier := existing.identifier
  name := if nameChangeCond existing c then c.name else existing.name
  group := if groupChangeCond existing c then c.group else existing.group

/-- `ConsumerRegistry.AddOrUpdateConsumer` from `consumer_registry.go` lines
80-103: no-op when name and group are both empty; stores and dirties a new
identifier; for a stored identifier, overwrites name/group under the Go
conditions and dirties the identifier when either condition fired. -/
def addOrUpdateConsumer (r : ConsumerRegistry) (c : Consumer) : ConsumerRegistry :=
  if c.name = "" ∧ c.group = "" then r
  else
    match r.consumers c.identifier with
    | none =>
        { ids := r.ids ++ [c.identifier]
          consumers := fun k => if k = c.identifier then some c else r.consumers k
          updated :=
            if c.identifier ∈ r.updated then r.updated
            else r.updated ++ [c.identifier] }
    | some existing =>
        { ids := r.ids
          consumers := fun k =>
            if k = c.identifier then some (storedRecord existing c)
            else r.consumers k
          updated :=
            if nameChangeCond existing c ∨ groupChangeCond existing c then
              (if c.identifier ∈ r.updated then r.updated
               else r.updated ++ [c.identifier])
            else r.updated }

/-- `ConsumerRegistry.GetAndResetUpdatedConsumers` lines 105-117: current
records of the dirty identifiers, then the dirty set alone is cleared. -/
def getAndResetUpdatedConsumers (r : ConsumerRegistry) :
    List Consumer × ConsumerRegistry :=
  (r.updated.filterMap r.consumers, { r with updated := [] })

theorem filterMap_no_id (f : String → Option Consumer) (l : List String)
    (idf : String) (hwf : ∀ k rec, f k = some rec → rec.identifier = k)
    (hmem : idf ∉ l) :
    ∀ rec ∈ l.filterMap f, rec.identifier ≠ idf := by
  intro rec hrec
  rcases List.mem_filterMap.mp hrec with ⟨k, hk, hfk⟩
  rw [hwf k rec hfk]
  exact fun hh => hmem (hh ▸ hk)

theorem filterMap_count_id (f : String → Option Consumer) (l : List String)
    (idf : String) (hwf : ∀ k rec, f k = some rec → rec.identifier = k)
    (hnd : l.Nodup) (hmem : idf ∈ l) (rec0 : Consumer) (hid : f idf = some rec0) :
    ((l.filterMap f).filter (fun rec => decide (rec.identifier = idf))).length
      = 1 := by
  induction l with
  | nil => cases hmem
  | cons a as ih =>
      have ha : a ∉ as := (List.nodup_cons.mp hnd).1
      have has : as.Nodup := (List.nodup_cons.mp hnd).2
      by_cases hai : a = idf
      · subst hai
        have hnone : ∀ rec ∈ as.filterMap f, rec.identifier ≠ a :=
          filterMap_no_id f as a hwf ha
        have hfil : (as.filterMap f).filter
            (fun rec => decide (rec.identifier = a)) = [] := by
          rw [List.filter_eq_nil_iff]
          intro rec hrec
          simpa using hnone rec hrec
        have hrid : rec0.identifier = a := hwf a rec0 hid
        simp [List.filterMap_cons, hid, List.filter_cons, hfil, hrid]
      · have hmem' : idf ∈ as := by
          rcases List.mem_cons.mp hmem with h1 | h1
          · exact absurd h1.symm hai
          · exact h1
        have hne : ∀ rec, f a = some rec → rec.identifier ≠ idf := by
          intro rec hrec
          rw [hwf a rec hrec]; exact hai
        cases hfa : f a with
        | none => simpa [List.filterMap_cons, hfa] using ih has hmem'
        | some rec =>
            have := hne rec hfa
            simpa [List.filterMap_cons, hfa, List.filter_cons, this]
              using ih has hmem'

/-- Well-formedness the Go registry maintains: stored records sit under
their own identifier and the dirty set has no duplicates. -/
structure RegistryWF (r : ConsumerRegistry) : Prop where
  lookup_id : ∀ k rec, r.consumers k = some rec → rec.identifier = k
  nodup_updated : r.updated.Nodup

/-- **C6**: `AddOrUpdateConsumer` with empty name and group changes
nothing; for a stored identifier it dirties the identifier exactly when the
stored record actually changed; the drain returns the current records of
the dirty identifiers and clears only the dirty set, so an unchanged update
adds nothing to the next drain while a changed one is drained exactly
once. -/
theorem storedRecord_eq_iff (existing c : Consumer) :
    storedRecord existing c = existing ↔
      ¬(nameChangeCond existing c ∨ groupChangeCond existing c) := by
  constructor
  · intro heq
    rintro (hn | hg)
    · have hname := congrArg Consumer.name heq
      simp only [storedRecord] at hname
      rw [if_pos hn] at hname
      rcases hn.2 with he | hne2
      · exact hn.1 (hname.trans he)
      · exact hne2 hname
    · have hgroup := congrArg Consumer.group heq
      simp only [storedRecord] at hgroup
      rw [if_pos hg] at hgroup
      rcases hg.2 with he | hne2
      · exact hg.1 (hgroup.trans he)
      · exact hne2 hgroup
  · intro hno
    rw [not_or] at hno
    simp only [storedRecord, if_neg hno.1, if_neg hno.2]

theorem consumerRegistry_correct (r : ConsumerRegistry) (c : Consumer)
    (hwf : RegistryWF r) :
    (c.name = "" ∧ c.group = "" → addOrUpdateConsumer r c = r)
  ∧ (∀ existing, r.consumers c.identifier = some existing →
      ((addOrUpdateConsumer r c).consumers c.identifier ≠ some existing →
        c.identifier ∈ (addOrUpdateConsumer r c).updated)
      ∧ ((addOrUpdateConsumer r c).consumers c.identifier = some existing →
        (addOrUpdateConsumer r c).updated = r.updated))
  ∧ ((getAndResetUpdatedConsumers r).1 = r.updated.filterMap r.consumers
      ∧ (getAndResetUpdatedConsumers r).2.consumers = r.consumers
      ∧ (getAndResetUpdatedConsumers r).2.ids = r.ids
      ∧ (getAndResetUpdatedConsumers r).2.updated = [])
  ∧ (∀ existing, r.consumers c.identifier = some existing →
      c.identifier ∉ r.updated →
      (addOrUpdateConsumer r c).consumers c.identifier = some existing →
      ∀ rec ∈ (getAndResetUpdatedConsumers (addOrUpdateConsumer r c)).1,
        rec.identifier ≠ c.identifier)
  ∧ (∀ existing, r.consumers c.identifier = some existing →
      (addOrUpdateConsumer r c).consumers c.identifier ≠ some existing →
      (((getAndResetUpdatedConsumers (addOrUpdateConsumer r c)).1.filter
          (fun rec => decide (rec.identifier = c.identifier))).length = 1)) := by
  have hcons : ∀ existing, r.consumers c.identifier = some existing →
      ¬(c.name = "" ∧ c.group = "") → ∀ k,
      (addOrUpdateConsumer r c).consumers k =
        if k = c.identifier then some (storedRecord existing c)
        else r.consumers k := by
    intro existing hex hne k
    simp only [addOrUpdateConsumer, if_neg hne, hex]
  have hupd : ∀ existing, r.consumers c.identifier = some existing →
      ¬(c.name = "" ∧ c.group = "") →
      (addOrUpdateConsumer r c).updated =
        if nameChangeCond existing c ∨ groupChangeCond existing c then
          (if c.identifier ∈ r.updated then r.updated
           else r.updated ++ [c.identifier])
        else r.updated := by
    intro existing hex hne
    simp only [addOrUpdateConsumer, if_neg hne, hex]
  have hchange : ∀ existing, r.consumers c.identifier = some existing →
      ¬(c.name = "" ∧ c.group = "") →
      ((addOrUpdateConsumer r c).consumers c.identifier = some existing ↔
        ¬(nameChangeCond existing c ∨ groupChangeCond existing c)) := by
    intro existing hex hne
    rw [hcons existing hex hne c.identifier, if_pos rfl, Option.some_inj]
    exact storedRecord_eq_iff existing c
  refine ⟨fun h => by simp [addOrUpdateConsumer, h], ?_, ⟨rfl, rfl, rfl, rfl⟩, ?_, ?_⟩
  · intro existing hex
    by_cases hne : c.name = "" ∧ c.group = ""
    · have hrr : addOrUpdateConsumer r c = r := by
        simp [addOrUpdateConsumer, hne]
      rw [hrr]
      exact ⟨fun hcontra => absurd hex hcontra, fun _ => rfl⟩
    · constructor
      · intro hchanged
        have hcond : nameChangeCond existing c ∨ groupChangeCond existing c := by
          by_contra hno
          exact hchanged ((hchange existing hex hne).mpr hno)
        rw [hupd existing hex hne, if_pos hcond]
        by_cases hmem : c.identifier ∈ r.updated <;> simp [hmem]
      · intro hsame
        rw [hupd existing hex hne, if_neg ((hchange existing hex hne).mp hsame)]
  · intro existing hex hnotdirty hsame
    by_cases hne : c.name = "" ∧ c.group = ""
    · have hrr : addOrUpdateConsumer r c = r := by
        simp [addOrUpdateConsumer, hne]
      rw [hrr]
      exact filterMap_no_id r.consumers r.updated c.identifier
        hwf.lookup_id hnotdirty
    · have hcond := (hchange existing hex hne).mp hsame
      have hupd2 := hupd existing hex hne
      rw [if_neg hcond] at hupd2
      show ∀ rec ∈ (addOrUpdateConsumer r c).updated.filterMap
        (addOrUpdateConsumer r c).consumers, rec.identifier ≠ c.identifier
      rw [hupd2]
      intro rec hrec
      rcases List.mem_filterMap.mp hrec with ⟨k, hk, hfk⟩
      have hkne : k ≠ c.identifier := fun hh => hnotdirty (hh ▸ hk)
      rw [hcons existing hex hne k, if_neg hkne] at hfk
      rw [hwf.lookup_id k rec hfk]
      exact hkne
  · intro existing hex hchanged
    have hne : ¬(c.name = "" ∧ c.group = "") := by
      intro hboth
      have hrr : addOrUpdateConsumer r c = r := by
        simp [addOrUpdateConsumer, hboth]
      exact hchanged (by rw [hrr]; exact hex)
    have hcond : nameChangeCond existing c ∨ groupChangeCond existing c := by
      by_contra hno
      exact hchanged ((hchange existing hex hne).mpr hno)
    have hupd2 := hupd existing hex hne
    rw [if_pos hcond] at hupd2
    have hid : existing.identifier = c.identifier :=
      hwf.lookup_id c.identifier existing hex
    show (((addOrUpdateConsumer r c).updated.filterMap
        (addOrUpdateConsumer r c).consumers).filter
        (fun rec => decide (rec.identifier = c.identifier))).length = 1
    have hwfA : ∀ k rec, (addOrUpdateConsumer r c).consumers k = some rec →
        rec.identifier = k := by
      intro k rec hfk
      rw [hcons existing hex hne k] at hfk
      by_cases hk : k = c.identifier
      · rw [if_pos hk, Option.some_inj] at hfk
        rw [← hfk]
        show (storedRecord existing c).identifier = k
        rw [hk]
        exact hid
      · rw [if_neg hk] at hfk
        exact hwf.lookup_id k rec hfk
    have hndA : (addOrUpdateConsumer r c).updated.Nodup := by
      rw [hupd2]
      by_cases hmem : c.identifier ∈ r.updated
      · simpa [hmem] using hwf.nodup_updated
      · simp [hmem, List.nodup_append, hwf.nodup_updated]
    have hmemA : c.identifier ∈ (addOrUpdateConsumer r c).updated := by
      rw [hupd2]
      by_cases hmem : c.identifier ∈ r.updated <;> simp [hmem]
    have hrec0 : (addOrUpdateConsumer r c).consumers c.identifier
        = some (storedRecord existing c) := by
      rw [hcons existing hex hne c.identifier, if_pos rfl]
    exact filterMap_count_id _ _ _ hwfA hndA hmemA _ hrec0


/-- A stored registry with one clean consumer, for the C6 witness. -/
def reg0 : ConsumerRegistry where
  ids := ["u1"]
  consumers := fun k => if k = "u1" then some ⟨"u1", "Alice", "g"⟩ else none
  updated := []

theorem reg0_wf : RegistryWF reg0 := by
  constructor
  · intro k rec h
    by_cases hk : k = "u1"
    · subst hk
      simp [reg0] at h
      simp [← h]
    · simp [reg0, hk] at h
  · simp [reg0]

/-- **C6 witness**: re-adding the stored consumer unchanged leaves the next
drain empty, while changing its name makes the next drain return it exactly
once. -/
theorem consumerRegistry_correct_witness :
    (getAndResetUpdatedConsumers
      (addOrUpdateConsumer reg0 ⟨"u1", "Alice", "g"⟩)).1 = []
    ∧ (((getAndResetUpdatedConsumers
          (addOrUpdateConsumer reg0 ⟨"u1", "Bob", "g"⟩)).1.filter
        (fun rec => decide (rec.identifier = "u1"))).length = 1) := by
  constructor
  · have h := (consumerRegistry_correct reg0 ⟨"u1", "Alice", "g"⟩ reg0_wf).2.1
      ⟨"u1", "Alice", "g"⟩ (by simp [reg0])
    have hsame : (addOrUpdateConsumer reg0 ⟨"u1", "Alice", "g"⟩).consumers "u1"
        = some ⟨"u1", "Alice", "g"⟩ := by
      simp only [addOrUpdateConsumer, reg0]
      decide
    have hupd := h.2 hsame
    show (addOrUpdateConsumer reg0 ⟨"u1", "Alice", "g"⟩).updated.filterMap
      (addOrUpdateConsumer reg0 ⟨"u1", "Alice", "g"⟩).consumers = []
    rw [hupd]
    simp [reg0]
  · exact (consumerRegistry_correct reg0 ⟨"u1", "Bob", "g"⟩ reg0_wf).2.2.2.2
      ⟨"u1", "Alice", "g"⟩ (by simp [reg0])
      (by simp only [addOrUpdateConsumer, reg0]; decide)

/-! ## JSON body-field masking (`maskBodyFields` / `maskJSONBody` in the
request logger) -/

/-- The fixed mask token (`masked = "******"`). -/
def masked : String := "******"

/-- The dynamic JSON value produced by `json.Unmarshal` into `any`:
null, booleans, numbers, strings, arrays, and string-keyed objects. -/
inductive Json where
  | null : Json
  | bool (b : Bool) : Json
  | num (q : ℚ) : Json
  | str (s : String) : Json
  | arr (items : List Json) : Json
  | obj (fields : List (String × Json)) : Json

/-- Whether the value is a string (`value.(string)` type assertion). -/
def Json.isStr : Json → Bool
  | .str _ => true
  | _ => false

theorem sizeOf_snd_lt_obj {kv : String × Json} {fields : List (String × Json)}
    (h : kv ∈ fields) : sizeOf kv.2 < 1 + sizeOf fields := by
  have h1 := List.sizeOf_lt_of_mem h
  have h2 : sizeOf kv.2 < sizeOf kv := by
    cases kv with | mk a b => simp
  omega

theorem sizeOf_mem_lt_arr {j : Json} {items : List Json}
    (h : j ∈ items) : sizeOf j < 1 + sizeOf items := by
  have := List.sizeOf_lt_of_mem h
  omega

/-- `maskBodyFields` from the request logger: for each object key, a
matching key with a string value is replaced by the mask token and skipped;
every other value is recursed into; array elements are recursed into;
scalars are returned unchanged.  `p` is the combined built-in + user
key-pattern predicate. -/
def maskBodyFields (p : String → Bool) : Json → Json
  | .obj fields => .obj (fields.attach.map (fun ⟨kv, _⟩ =>
      if p kv.1 then
        (if kv.2.isStr then (kv.1, .str masked) else (kv.1, maskBodyFields p kv.2))
      else (kv.1, maskBodyFields p kv.2)))
  | .arr items => .arr (items.attach.map (fun ⟨j, _⟩ => maskBodyFields p j))
  | .null => .null
  | .bool b => .bool b
  | .num q => .num q
  | .str s => .str s
termination_by j => sizeOf j
decreasing_by
  all_goals simp only [Json.obj.sizeOf_spec, Json.arr.sizeOf_spec]
  all_goals first
    | exact sizeOf_snd_lt_obj (by assumption)
    | exact sizeOf_mem_lt_arr (by assumption)

/-- The masking transformation as the specification words it: at any
nesting depth (objects, arrays of objects), the value of every object key
that matches a redaction pattern and whose value is a string becomes the
mask token; sibling non-matching keys are untouched apart from the
recursive walk, and a non-string value under a matching key is not
replaced, only walked. -/
def maskBodyFieldsSpec (p : String → Bool) : Json → Json
  | .obj fields => .obj (fields.attach.map (fun ⟨kv, _⟩ =>
      if p kv.1 ∧ kv.2.isStr = true then (kv.1, .str masked)
      else (kv.1, maskBodyFieldsSpec p kv.2)))
  | .arr items => .arr (items.attach.map (fun ⟨j, _⟩ => maskBodyFieldsSpec p j))
  | .null => .null
  | .bool b => .bool b
  | .num q => .num q
  | .str s => .str s
termination_by j => sizeOf j
decreasing_by
  all_goals simp only [Json.obj.sizeOf_spec, Json.arr.sizeOf_spec]
  all_goals first
    | exact sizeOf_snd_lt_obj (by assumption)
    | exact sizeOf_mem_lt_arr (by assumption)

/-- `maskJSONBody`: parse, mask the fields, re-serialize; an unparseable
body is returned unchanged.  The JSON codec is abstracted as `parse`/`ser`
oracles. -/
def maskJSONBody (parse : List Nat → Option Json) (ser : Json → List Nat)
    (p : String → Bool) (body : List Nat) : List Nat :=
  match parse body with
  | none => body
  | some data => ser (maskBodyFields p data)

theorem maskBodyFields_eq_spec_bounded (p : String → Bool) :
    ∀ (n : Nat) (j : Json), sizeOf j ≤ n →
      maskBodyFields p j = maskBodyFieldsSpec p j := by
  intro n
  induction n with
  | zero =>
      intro j hj
      cases j <;> simp at hj
  | succ n ih =>
      intro j hj
      cases j with
      | obj fields =>
          rw [maskBodyFields, maskBodyFieldsSpec]
          congr 1
          apply List.map_congr_left
          rintro ⟨kv, hkv⟩ _
          have hsz : sizeOf kv.2 ≤ n := by
            have h1 := sizeOf_snd_lt_obj hkv
            have h2 : sizeOf (Json.obj fields) ≤ n + 1 := hj
            simp only [Json.obj.sizeOf_spec] at h2
            omega
          have hrec := ih kv.2 hsz
          by_cases hp : p kv.1
          · by_cases hs : kv.2.isStr
            · simp [hp, hs]
            · simp [hp, hs, hrec]
          · simp [hp, hrec]
      | arr items =>
          rw [maskBodyFields, maskBodyFieldsSpec]
          congr 1
          apply List.map_congr_left
          rintro ⟨j0, hj0⟩ _
          have hsz : sizeOf j0 ≤ n := by
            have h1 := sizeOf_mem_lt_arr hj0
            have h2 : sizeOf (Json.arr items) ≤ n + 1 := hj
            simp only [Json.arr.sizeOf_spec] at h2
            omega
          exact ih j0 hsz
      | null => simp [maskBodyFields, maskBodyFieldsSpec]
      | bool b => simp [maskBodyFields, maskBodyFieldsSpec]
      | num q => simp [maskBodyFields, maskBodyFieldsSpec]
      | str s => simp [maskBodyFields, maskBodyFieldsSpec]

/-- **C4**: the source masking function agrees with the specification's
description everywhere: every string value under a matching object key, at
any depth including inside arrays, becomes the mask token; everything else
is preserved up to the recursive walk; an unparseable body passes through
unchanged. -/
theorem maskBodyFields_matches_spec (p : String → Bool)
    (parse : List Nat → Option Json) (ser : Json → List Nat) :
    (∀ j, maskBodyFields p j = maskBodyFieldsSpec p j)
    ∧ (∀ body, maskJSONBody parse ser p body =
        match parse body with
        | none => body
        | some data => ser (maskBodyFieldsSpec p data)) := by
  have main : ∀ j, maskBodyFields p j = maskBodyFieldsSpec p j :=
    fun j => maskBodyFields_eq_spec_bounded p (sizeOf j) j le_rfl
  refine ⟨main, fun body => ?_⟩
  unfold maskJSONBody
  cases parse body with
  | none => rfl
  | some data => simp [main data]

/-! ## Request logger data model and filtering -/

/-- Byte-string helper for the ASCII sentinel constants. -/
def strBytes (s : String) : List Nat := s.data.map Char.toNat

/-- `bodyTooLarge = []byte("<body too large>")`. -/
def bodyTooLarge : List Nat := strBytes "<body too large>"

/-- `bodyMasked = []byte("<masked>")`. -/
def bodyMasked : List Nat := strBytes "<masked>"

/-- `common.MaxBodySize = 50_000`. -/
def maxBodySizeC : Nat := 50000

/-- `maxPendingWrites = 100`. -/
def maxPendingWrites : Nat := 100

/-- `maxFiles = 50`. -/
def maxFilesC : Nat := 50

/-- ASCII lower-casing (the `(?i)` flag of the Go patterns). -/
def toLowerStr (s : String) : String := String.mk (s.data.map Char.toLower)

/-- Whether `l` starts with `pre`. -/
def prefixMatch : List Char → List Char → Bool
  | [], _ => true
  | _ :: _, [] => false
  | a :: as, b :: bs => a == b && prefixMatch as bs

/-- Whether `l` ends with `suf`. -/
def suffixMatch (suf l : List Char) : Bool := prefixMatch suf.reverse l.reverse

/-- Whether `sub` occurs contiguously inside `l`. -/
def containsSub (sub : List Char) : List Char → Bool
  | [] => prefixMatch sub []
  | c :: rest => prefixMatch sub (c :: rest) || containsSub sub rest

/-- The languages of the anchored case-insensitive `excludePathPatterns`
(`/_?healthz?$`, `/_?health[_-]?checks?$`, `/_?heart[_-]?beats?$`, `/ping$`,
`/ready$`, `/live$`) as the finite set of lowercase suffixes they accept. -/
def excludePathSuffixes : List String :=
  ["/health", "/healthz", "/_health", "/_healthz",
   "/healthcheck", "/healthchecks", "/health-check", "/health-checks",
   "/health_check", "/health_checks",
   "/_healthcheck", "/_healthchecks", "/_health-check", "/_health-checks",
   "/_health_check", "/_health_checks",
   "/heartbeat", "/heartbeats", "/heart-beat", "/heart-beats",
   "/heart_beat", "/heart_beats",
   "/_heartbeat", "/_heartbeats", "/_heart-beat", "/_heart-beats",
   "/_heart_beat", "/_heart_beats",
   "/ping", "/ready", "/live"]

/-- The substrings accepted by the unanchored case-insensitive
`excludeUserAgentPatterns`. -/
def excludeUserAgentSubs : List String :=
  ["healthcheck", "health-check", "health_check", "health check",
   "microsoft-azure-application-lb", "googlehc", "kube-probe"]

/-- Substrings of the built-in `maskHeaderPatterns`
(`auth`, `api-?key`, `secret`, `token`, `cookie`). -/
def maskHeaderSubs : List String :=
  ["auth", "apikey", "api-key", "secret", "token", "cookie"]

/-- Substrings of the built-in `maskQueryParamPatterns`. -/
def maskQueryParamSubs : List String :=
  ["auth", "apikey", "api-key", "secret", "token", "password", "pwd"]

/-- Substrings of the built-in `maskBodyFieldPatterns`
(`password`, `pwd`, `token`, `secret`, `auth`, `card[-_ ]?number`, `ccv`,
`ssn`). -/
def maskBodyFieldSubs : List String :=
  ["password", "pwd", "token", "secret", "auth",
   "cardnumber", "card-number", "card_number", "card number", "ccv", "ssn"]

/-- An HTTP request as seen by the logger (`common.Request`); only the
fields the logger reads are modelled, the body as `Option` to keep Go's
`nil` distinct from an empty slice. -/
structure Request where
  method : String
  path : String
  url : String
  headers : List (String × String)
  body : Option (List Nat)
deriving DecidableEq, Repr

/-- An HTTP response as seen by the logger (`common.Response`). -/
structure Response where
  statusCode : Int
  headers : List (String × String)
  body : Option (List Nat)
deriving DecidableEq, Repr

/-- `ExceptionInfo`. -/
structure ExceptionInfo where
  type : String
  message : String
  stackTrace : String
deriving DecidableEq, Repr

/-- `RequestLogItem` (the generated UUID is modelled as a caller-supplied
number). -/
structure RequestLogItem where
  uuid : Nat
  request : Request
  response : Response
  exception : Option ExceptionInfo
deriving DecidableEq, Repr

/-- `TempGzipFile`, identified by its random id. -/
structure TempGzipFile where
  uuid : Nat
deriving DecidableEq, Repr

/-- `common.RequestLoggingConfig`; user regex patterns are modelled as
string predicates, callbacks as optional functions. -/
structure RequestLoggingConfig where
  enabled : Bool
  logQueryParams : Bool
  logRequestHeaders : Bool
  logRequestBody : Bool
  logResponseHeaders : Bool
  logResponseBody : Bool
  logPanic : Bool
  excludePaths : List (String → Bool)
  excludeCallback : Option (Request → Response → Bool)
  maskQueryParams : List (String → Bool)
  maskHeaders : List (String → Bool)
  maskBodyFields : List (String → Bool)
  maskRequestBodyCallback : Option (Request → Option (List Nat))
  maskResponseBodyCallback : Option (Request → Response → Option (List Nat))

/-- `shouldExcludePath`: built-in suffix patterns plus user patterns. -/
def shouldExcludePath (cfg : RequestLoggingConfig) (urlPath : String) : Bool :=
  excludePathSuffixes.any (fun suf => suffixMatch suf.data (toLowerStr urlPath).data)
  || cfg.excludePaths.any (fun pat => pat urlPath)

/-- `shouldExcludeUserAgent`: empty user agent never matches. -/
def shouldExcludeUserAgent (userAgent : String) : Bool :=
  if userAgent = "" then false
  else excludeUserAgentSubs.any
    (fun sub => containsSub sub.data (toLowerStr userAgent).data)

/-- `shouldMaskHeader`. -/
def shouldMaskHeader (cfg : RequestLoggingConfig) (name : String) : Bool :=
  maskHeaderSubs.any (fun sub => containsSub sub.data (toLowerStr name).data)
  || cfg.maskHeaders.any (fun pat => pat name)

/-- `shouldMaskQueryParam`. -/
def shouldMaskQueryParam (cfg : RequestLoggingConfig) (name : String) : Bool :=
  maskQueryParamSubs.any (fun sub => containsSub sub.data (toLowerStr name).data)
  || cfg.maskQueryParams.any (fun pat => pat name)

/-- `shouldMaskBodyField`. -/
def shouldMaskBodyField (cfg : RequestLoggingConfig) (name : String) : Bool :=
  maskBodyFieldSubs.any (fun sub => containsSub sub.data (toLowerStr name).data)
  || cfg.maskBodyFields.any (fun pat => pat name)

/-- First value of the header with the exact given name, as the Go loops
scan `header[0] == name`. -/
def findHeader (headers : List (String × String)) (name : String) : Option String :=
  match headers with
  | [] => none
  | (k, v) :: rest => if k = name then some v else findHeader rest name

/-- `IsSupportedContentType`: nonempty and prefixed by an allowed type. -/
def isSupportedContentType (contentType : String) : Bool :=
  if contentType = "" then false
  else prefixMatch "application/json".data contentType.data
    || prefixMatch "text/plain".data contentType.data

/-- `hasSupportedContentType`: decided by the first `Content-Type` header,
absent means unsupported. -/
def hasSupportedContentType (headers : List (String × String)) : Bool :=
  match findHeader headers "Content-Type" with
  | none => false
  | some v => isSupportedContentType v

/-- Word-character class for the `\b` boundaries of
`jsonContentTypePattern`. -/
def isWordChar (c : Char) : Bool := c.isAlphanum || c == '_'

/-- Scanner for `(?i)\bjson\b`: an occurrence of `json` with non-word (or
absent) characters on both sides, over the lowercased input; `prev` is the
character before the current position. -/
def hasJsonWordAux (prev : Option Char) : List Char → Bool
  | [] => false
  | c :: rest =>
      (prefixMatch "json".data (c :: rest)
        && (match prev with
            | none => true
            | some pc => !isWordChar pc)
        && (match (c :: rest).drop 4 with
            | [] => true
            | d :: _ => !isWordChar d))
      || hasJsonWordAux (some c) rest

/-- `hasJSONContentType`: decided by the first `Content-Type` header. -/
def hasJSONContentType (headers : List (String × String)) : Bool :=
  match findHeader headers "Content-Type" with
  | none => false
  | some v => hasJsonWordAux none (toLowerStr v).data

/-- State of `RequestLogger` (the maintenance goroutine's channel contents
are the `pendingWrites` and `files` lists, front = oldest). -/
structure RequestLoggerState where
  enabled : Bool
  suspendUntil : Option Nat
  pendingWrites : List RequestLogItem
  currentFile : Option TempGzipFile
  files : List TempGzipFile
deriving DecidableEq, Repr

/-- `IsSuspended` at the given time (`time.Now().Before(*suspendUntil)`). -/
def isSuspendedAt (now : Nat) (st : RequestLoggerState) : Bool :=
  match st.suspendUntil with
  | none => false
  | some t => now < t

/-- The non-blocking send with drop-oldest fallback used for
`pendingWrites` (`LogRequest` select/default/select): admit if below
capacity, otherwise evict the front element and admit. -/
def pushEvictOldest {α : Type} (cap : Nat) (q : List α) (x : α) : List α :=
  if q.length < cap then q ++ [x]
  else
    match q with
    | [] => q
    | _ :: rest => rest ++ [x]

/-- Body-nullling of `LogRequest` lines 158-163 for the request side. -/
def processedRequest (cfg : RequestLoggingConfig) (request : Request) : Request :=
  if !cfg.logRequestBody || !hasSupportedContentType request.headers then
    { request with body := none }
  else request

/-- Body-nullling for the response side. -/
def processedResponse (cfg : RequestLoggingConfig) (response : Response) : Response :=
  if !cfg.logResponseBody || !hasSupportedContentType response.headers then
    { response with body := none }
  else response

/-- The `RequestLogItem` built by `LogRequest` lines 165-179; the handler
error is its reflected type plus message. -/
def buildLogItem (cfg : RequestLoggingConfig) (uuid : Nat) (request : Request)
    (response : Response) (handlerError : Option (String × String))
    (stackTrace : String) : RequestLogItem where
  uuid := uuid
  request := processedRequest cfg request
  response := processedResponse cfg response
  exception :=
    match handlerError with
    | some (t, m) =>
        if cfg.logPanic then
          some ⟨t, truncateExceptionMessage m, truncateExceptionStackTrace stackTrace⟩
        else none
    | none => none

/-- Whether the user exclude callback fires. -/
def excludeCallbackFires (cfg : RequestLoggingConfig) (request : Request)
    (response : Response) : Bool :=
  match cfg.excludeCallback with
  | some f => f request response
  | none => false

/-- `RequestLogger.LogRequest` from the request logger (lines 138-191):
bail out when disabled, suspended, or either argument is nil; discard on
path, user-agent, or callback exclusion; otherwise build the item and
enqueue it non-blockingly with drop-oldest overflow. -/
def logRequest (cfg : RequestLoggingConfig) (now : Nat) (st : RequestLoggerState)
    (uuid : Nat) (request? : Option Request) (response? : Option Response)
    (handlerError : Option (String × String)) (stackTrace : String) :
    RequestLoggerState :=
  if !st.enabled || isSuspendedAt now st
      || request?.isNone || response?.isNone then st
  else
    match request?, response? with
    | some request, some response =>
        let userAgent := (findHeader request.headers "User-Agent").getD ""
        if shouldExcludePath cfg request.path || shouldExcludeUserAgent userAgent then
          st
        else if excludeCallbackFires cfg request response then st
        else
          { st with
            pendingWrites :=
              pushEvictOldest maxPendingWrites st.pendingWrites
                (buildLogItem cfg uuid request response handlerError stackTrace) }
    | _, _ => st

/-- A configuration with logging enabled and no user patterns or
callbacks. -/
def cfgNone : RequestLoggingConfig where
  enabled := true
  logQueryParams := false
  logRequestHeaders := false
  logRequestBody := false
  logResponseHeaders := false
  logResponseBody := false
  logPanic := false
  excludePaths := []
  excludeCallback := none
  maskQueryParams := []
  maskHeaders := []
  maskBodyFields := []
  maskRequestBodyCallback := none
  maskResponseBodyCallback := none

/-- A fresh enabled logger state. -/
def stEmpty : RequestLoggerState where
  enabled := true
  suspendUntil := none
  pendingWrites := []
  currentFile := none
  files := []

/-- A health-check request. -/
def reqHealthz : Request where
  method := "GET"
  path := "/healthz"
  url := "http://test/healthz"
  headers := []
  body := none

/-- An ordinary request. -/
def reqItems : Request where
  method := "GET"
  path := "/items"
  url := "http://test/items"
  headers := []
  body := none

/-- A plain response. -/
def resp0 : Response where
  statusCode := 200
  headers := []
  body := none

/-- **C10**: `LogRequest` with a nil request or a nil response returns
immediately (no record enqueued, no state change, no error surfaced),
regardless of the enabled/suspended state. -/
theorem logRequest_nil_noop (cfg : RequestLoggingConfig) (now : Nat)
    (st : RequestLoggerState) (uuid : Nat) (request? : Option Request)
    (response? : Option Response) (handlerError : Option (String × String))
    (stackTrace : String) (h : request? = none ∨ response? = none) :
    logRequest cfg now st uuid request? response? handlerError stackTrace = st := by
  unfold logRequest
  rcases h with h | h <;> subst h <;> simp

/-- **C10 witness**: a nil request on an enabled, unsuspended logger. -/
theorem logRequest_nil_noop_witness :
    logRequest cfgNone 0 stEmpty 0 none (some resp0) none "" = stEmpty :=
  logRequest_nil_noop cfgNone 0 stEmpty 0 none (some resp0) none "" (Or.inl rfl)

/-- **C9**: with logging disabled or inside a suspension window nothing is
recorded; otherwise a request is discarded iff the path matches a built-in
or user exclusion pattern, or the User-Agent matches a probe signature, or
the user exclude callback fires (checked in that order in the source);
concretely, `/healthz` yields zero records while `/items` yields exactly
one under the same configuration. -/
theorem logRequest_filter_correct (cfg : RequestLoggingConfig) (now : Nat)
    (st : RequestLoggerState) (uuid : Nat) (req : Request) (resp : Response)
    (err : Option (String × String)) (stk : String) :
    (st.enabled = false ∨ isSuspendedAt now st = true →
      logRequest cfg now st uuid (some req) (some resp) err stk = st)
  ∧ (st.enabled = true → isSuspendedAt now st = false →
      ((shouldExcludePath cfg req.path
          || shouldExcludeUserAgent ((findHeader req.headers "User-Agent").getD "")
          || excludeCallbackFires cfg req resp) = true →
        logRequest cfg now st uuid (some req) (some resp) err stk = st)
      ∧ ((shouldExcludePath cfg req.path
          || shouldExcludeUserAgent ((findHeader req.headers "User-Agent").getD "")
          || excludeCallbackFires cfg req resp) = false →
        logRequest cfg now st uuid (some req) (some resp) err stk
          = { st with
              pendingWrites :=
                pushEvictOldest maxPendingWrites st.pendingWrites
                  (buildLogItem cfg uuid req resp err stk) }))
  ∧ logRequest cfgNone 5 stEmpty 7 (some reqHealthz) (some resp0) none "" = stEmpty
  ∧ logRequest cfgNone 5 stEmpty 7 (some reqItems) (some resp0) none ""
      = { stEmpty with
          pendingWrites := [buildLogItem cfgNone 7 reqItems resp0 none ""] } := by
  refine ⟨?_, ?_, by decide, by decide⟩
  · intro h
    unfold logRequest
    rcases h with h | h <;> simp [h]
  · intro hen hsus
    have base : logRequest cfg now st uuid (some req) (some resp) err stk
        = (if shouldExcludePath cfg req.path
              || shouldExcludeUserAgent ((findHeader req.headers "User-Agent").getD "")
           then st
           else if excludeCallbackFires cfg req resp then st
           else { st with
                  pendingWrites :=
                    pushEvictOldest maxPendingWrites st.pendingWrites
                      (buildLogItem cfg uuid req resp err stk) }) := by
      unfold logRequest
      simp [hen, hsus]
    constructor
    · intro hdis
      rw [base]
      by_cases hab : (shouldExcludePath cfg req.path
          || shouldExcludeUserAgent ((findHeader req.headers "User-Agent").getD ""))
          = true
      · simp [hab]
      · have hc : excludeCallbackFires cfg req resp = true := by
          rcases Bool.or_eq_true_iff.mp hdis with h | h
          · exact absurd h hab
          · exact h
        rw [Bool.not_eq_true] at hab
        simp [hab, hc]
    · intro hdis
      rw [base]
      obtain ⟨⟨ha, hb⟩, hc⟩ : (shouldExcludePath cfg req.path = false
          ∧ shouldExcludeUserAgent ((findHeader req.headers "User-Agent").getD "")
              = false)
          ∧ excludeCallbackFires cfg req resp = false := by
        simpa using hdis
      simp [ha, hb, hc]

/-- **C9 witness**: the health-check request is discarded via the
filtering clause of the theorem. -/
theorem logRequest_filter_correct_witness :
    logRequest cfgNone 5 stEmpty 7 (some reqHealthz) (some resp0) none ""
      = stEmpty :=
  ((logRequest_filter_correct cfgNone 5 stEmpty 7 reqHealthz resp0 none "").2.1
    rfl rfl).1 (by decide)

/-! ## Body masking at write time (`applyMasking`, part of the request
logger) -/

/-- The JSON codec (`json.Unmarshal` / `json.Marshal`) as oracles; Go's
`Marshal` cannot fail on decoded dynamic values, so serialization is
total. -/
structure JsonCodec where
  parse : List Nat → Option Json
  ser : Json → List Nat

/-- The user request-body callback block of `applyMasking` (lines 245-252):
runs only when a callback is configured, the body is non-nil and not the
oversize sentinel; `nil` from the callback means fully redact. -/
def applyRequestBodyCallback (cfg : RequestLoggingConfig) (request : Request) :
    Request :=
  match cfg.maskRequestBodyCallback with
  | none => request
  | some f =>
      match request.body with
      | none => request
      | some b =>
          if b = bodyTooLarge then request
          else
            match f request with
            | none => { request with body := some bodyMasked }
            | some mb => { request with body := some mb }

/-- The user response-body callback block (lines 255-262); it receives the
request as already mutated by the request callback. -/
def applyResponseBodyCallback (cfg : RequestLoggingConfig) (request : Request)
    (response : Response) : Response :=
  match cfg.maskResponseBodyCallback with
  | none => response
  | some f =>
      match response.body with
      | none => response
      | some b =>
          if b = bodyTooLarge then response
          else
            match f request response with
            | none => { response with body := some bodyMasked }
            | some mb => { response with body := some mb }

/-- The size check of `applyMasking` lines 265-270. -/
def checkBodySize (body? : Option (List Nat)) : Option (List Nat) :=
  match body? with
  | none => none
  | some b => if b.length > maxBodySizeC then some bodyTooLarge else some b

/-- The JSON field-masking block of `applyMasking` lines 273-282: only for
non-sentinel bodies under a JSON content type. -/
def applyJSONMask (cfg : RequestLoggingConfig) (codec : JsonCodec)
    (headers : List (String × String)) (body? : Option (List Nat)) :
    Option (List Nat) :=
  match body? with
  | none => none
  | some b =>
      if b ≠ bodyTooLarge ∧ b ≠ bodyMasked ∧ hasJSONContentType headers = true then
        some (maskJSONBody codec.parse codec.ser (shouldMaskBodyField cfg) b)
      else some b

/-- `maskHeaders`: mask the value of every matching header name. -/
def maskHeadersList (cfg : RequestLoggingConfig)
    (headers : List (String × String)) : List (String × String) :=
  headers.map (fun h => if shouldMaskHeader cfg h.1 then (h.1, masked) else h)

/-- `applyMasking` (lines 240-306): user callbacks first, then the size
check, then JSON field masking, then header dropping/masking, then query
parameter processing.  `urlTransform` abstracts the
`url.Parse`/mask-or-strip/`String()` block for the given configuration. -/
def applyMasking (cfg : RequestLoggingConfig) (codec : JsonCodec)
    (urlTransform : String → String) (item : RequestLogItem) : RequestLogItem :=
  let request := applyRequestBodyCallback cfg item.request
  let response := applyResponseBodyCallback cfg request item.response
  let request := { request with body := checkBodySize request.body }
  let response := { response with body := checkBodySize response.body }
  let request := { request with
    body := applyJSONMask cfg codec request.headers request.body }
  let response := { response with
    body := applyJSONMask cfg codec response.headers response.body }
  let request :=
    if !cfg.logRequestHeaders then { request with headers := [] }
    else { request with headers := maskHeadersList cfg request.headers }
  let response :=
    if !cfg.logResponseHeaders then { response with headers := [] }
    else { response with headers := maskHeadersList cfg response.headers }
  let request := { request with url := urlTransform request.url }
  { item with request := request, response := response }

/-- **C5**: when a request-body masking callback is configured and the
enqueued record carries a body (not the oversize sentinel), the callback
runs first: `nil` stores the masked-body sentinel; returned bytes become
the stored body (further JSON field masking applies under a JSON content
type), and a body longer than 50,000 bytes is stored as the oversize
sentinel instead. -/
theorem applyMasking_bodyCallback (cfg : RequestLoggingConfig)
    (codec : JsonCodec) (urlT : String → String) (item : RequestLogItem)
    (f : Request → Option (List Nat))
    (hcb : cfg.maskRequestBodyCallback = some f)
    (b : List Nat) (hb : item.request.body = some b) (hbig : b ≠ bodyTooLarge) :
    (f item.request = none →
      (applyMasking cfg codec urlT item).request.body = some bodyMasked)
  ∧ (∀ bs, f item.request = some bs → bs.length > maxBodySizeC →
      (applyMasking cfg codec urlT item).request.body = some bodyTooLarge)
  ∧ (∀ bs, f item.request = some bs → bs.length ≤ maxBodySizeC →
      hasJSONContentType item.request.headers = false →
      (applyMasking cfg codec urlT item).request.body = some bs)
  ∧ (∀ bs, f item.request = some bs → bs.length ≤ maxBodySizeC →
      bs ≠ bodyTooLarge → bs ≠ bodyMasked →
      hasJSONContentType item.request.headers = true →
      (applyMasking cfg codec urlT item).request.body
        = some (maskJSONBody codec.parse codec.ser (shouldMaskBodyField cfg) bs)) := by
  have hreq1 : ∀ mb, f item.request = some mb →
      applyRequestBodyCallback cfg item.request
        = { item.request with body := some mb } := by
    intro mb hf
    simp only [applyRequestBodyCallback, hcb, hb, hf]
    rw [if_neg hbig]
  have hreq1n : f item.request = none →
      applyRequestBodyCallback cfg item.request
        = { item.request with body := some bodyMasked } := by
    intro hf
    simp only [applyRequestBodyCallback, hcb, hb, hf]
    rw [if_neg hbig]
  refine ⟨?_, ?_, ?_, ?_⟩
  · intro hf
    unfold applyMasking
    rw [hreq1n hf]
    simp [checkBodySize, applyJSONMask, bodyMasked, maxBodySizeC, strBytes]
    by_cases hh : cfg.logRequestHeaders <;> simp [hh]
  · intro bs hf hlen
    unfold applyMasking
    rw [hreq1 bs hf]
    simp [checkBodySize, hlen, applyJSONMask]
    by_cases hh : cfg.logRequestHeaders <;> simp [hh]
  · intro bs hf hlen hjson
    unfold applyMasking
    rw [hreq1 bs hf]
    have hlen' : ¬(bs.length > maxBodySizeC) := by omega
    simp [checkBodySize, hlen', applyJSONMask, hjson]
    by_cases hh : cfg.logRequestHeaders <;> simp [hh]
  · intro bs hf hlen hbs1 hbs2 hjson
    unfold applyMasking
    rw [hreq1 bs hf]
    have hlen' : ¬(bs.length > maxBodySizeC) := by omega
    simp [checkBodySize, hlen', applyJSONMask, hjson, hbs1, hbs2]
    by_cases hh : cfg.logRequestHeaders <;> simp [hh]

/-- The all-redact callback for the C5 witness. -/
def cbRedact : Request → Option (List Nat) := fun _ => none

/-- Configuration with body logging and the redacting callback. -/
def cfgCb : RequestLoggingConfig :=
  { cfgNone with
    logRequestBody := true
    maskRequestBodyCallback := some cbRedact }

/-- A text-body request record as enqueued by `LogRequest`. -/
def itemText : RequestLogItem where
  uuid := 1
  request :=
    { method := "POST"
      path := "/items"
      url := "http://test/items"
      headers := [("Content-Type", "text/plain")]
      body := some (strBytes "hi") }
  response := resp0
  exception := none

/-- The trivial JSON codec oracle (treats every body as unparseable). -/
def codecNone : JsonCodec where
  parse := fun _ => none
  ser := fun _ => []

/-- **C5 witness**: the redacting callback makes the stored body the
masked-body sentinel. -/
theorem applyMasking_bodyCallback_witness :
    (applyMasking cfgCb codecNone id itemText).request.body = some bodyMasked :=
  (applyMasking_bodyCallback cfgCb codecNone id itemText cbRedact rfl
    (strBytes "hi") rfl (by decide)).1 rfl

/-! ## Sync client (`internal/client.go`) -/

/-- `HubRequestStatus`. -/
inductive HubStatus where
  | ok : HubStatus
  | validationError : HubStatus
  | invalidClientId : HubStatus
  | paymentRequired : HubStatus
  | retryableError : HubStatus
deriving DecidableEq, Repr

/-- A queued metrics payload, reduced to its identity and timestamp (Unix
seconds); the embedded metric lists do not influence queue behavior. -/
structure SyncPayload where
  uuid : Nat
  timestamp : Nat
deriving DecidableEq, Repr

/-- `maxQueueTime` (1 hour, in seconds). -/
def maxQueueTime : Nat := 3600

/-- `maxQueueSize = 400`. -/
def maxQueueSize : Nat := 400

/-- The initial non-blocking enqueue of `sendSyncData` (lines 262-268): a
full channel drops the newly created payload and reports an error that
every caller discards. -/
def enqueueSyncPayload (queue : List SyncPayload) (p : SyncPayload) :
    List SyncPayload × Bool :=
  if queue.length < maxQueueSize then (queue ++ [p], true) else (queue, false)

/-- Result of one metrics-send step: the remaining queue, the ids of all
payloads POSTed to the hub in order, and the ids accepted by the hub. -/
structure SyncSendResult where
  queue : List SyncPayload
  attempts : List Nat
  delivered : List Nat
deriving DecidableEq, Repr

/-- The queue-processing loop of `sendSyncData` (lines 271-312): pop the
front payload; if older than `maxQueueTime` drop it unsent; otherwise send
it (`status i` is the hub outcome of the i-th POST of this tick); a
retryable failure re-enqueues the payload at the BACK of the channel (or
drops it when the channel is full) and the loop continues; any other
outcome removes the payload.  The loop only stops when the queue is empty;
`fuel` bounds the model's recursion (the Go loop can keep cycling a failing
queue within one call until payloads age out). -/
def processSyncQueue (status : Nat → HubStatus) (now : Nat) :
    Nat → Nat → List SyncPayload → List Nat → List Nat → SyncSendResult
  | 0, _, queue, att, del => ⟨queue, att, del⟩
  | fuel + 1, i, queue, att, del =>
      match queue with
      | [] => ⟨[], att, del⟩
      | payload :: rest =>
          if now - payload.timestamp > maxQueueTime then
            processSyncQueue status now fuel i rest att del
          else
            match status i with
            | .retryableError =>
                if rest.length < maxQueueSize then
                  processSyncQueue status now fuel (i + 1) (rest ++ [payload])
                    (att ++ [payload.uuid]) del
                else
                  processSyncQueue status now fuel (i + 1) rest
                    (att ++ [payload.uuid]) del
            | s =>
                processSyncQueue status now fuel (i + 1) rest
                  (att ++ [payload.uuid])
                  (if s = HubStatus.ok then del ++ [payload.uuid] else del)

/-- `sendSyncData`: enqueue the fresh drain snapshot (dropped when the
channel is full, with an error the caller ignores), then drain the queue. -/
def sendSyncData (status : Nat → HubStatus) (now : Nat)
    (queue : List SyncPayload) (newPayload : SyncPayload) (fuel : Nat) :
    SyncSendResult :=
  let e := enqueueSyncPayload queue newPayload
  if e.2 then processSyncQueue status now fuel 0 e.1 [] []
  else ⟨e.1, [], []⟩

/-- **C1 (amended)**: in each tick the queue is drained front-first: an
expired payload (older than 1 hour) is dropped unsent; a successfully sent
payload is removed; but a transient failure re-enqueues the payload at the
back of the queue (dropping it if the queue is full) and the loop
CONTINUES with the next queued payload in the same tick, so a transiently
failed payload can be retried within the same tick and later payloads can
be delivered before it. -/
theorem sendSyncData_queue_step (status : Nat → HubStatus) (now : Nat)
    (fuel i : Nat) (p : SyncPayload) (rest : List SyncPayload)
    (att del : List Nat) :
    (now - p.timestamp > maxQueueTime →
      processSyncQueue status now (fuel + 1) i (p :: rest) att del
        = processSyncQueue status now fuel i rest att del)
  ∧ (now - p.timestamp ≤ maxQueueTime → status i = .retryableError →
      rest.length < maxQueueSize →
      processSyncQueue status now (fuel + 1) i (p :: rest) att del
        = processSyncQueue status now fuel (i + 1) (rest ++ [p])
            (att ++ [p.uuid]) del)
  ∧ (now - p.timestamp ≤ maxQueueTime → status i = .ok →
      processSyncQueue status now (fuel + 1) i (p :: rest) att del
        = processSyncQueue status now fuel (i + 1) rest (att ++ [p.uuid])
            (del ++ [p.uuid])) := by
  refine ⟨?_, ?_, ?_⟩
  · intro hexp
    simp only [processSyncQueue]
    rw [if_pos hexp]
  · intro hexp hst hlen
    have hexp' : ¬(now - p.timestamp > maxQueueTime) := by omega
    simp only [processSyncQueue, hst]
    rw [if_neg hexp', if_pos hlen]
  · intro hexp hst
    have hexp' : ¬(now - p.timestamp > maxQueueTime) := by omega
    simp only [processSyncQueue, hst]
    rw [if_neg hexp']
    simp

/-- **C1 witness**: one concrete loop step with a fresh payload, a
transient failure, and room in the queue. -/
theorem sendSyncData_queue_step_witness :
    processSyncQueue (fun _ => HubStatus.retryableError) 1000 3 0
        [⟨1, 1000⟩, ⟨2, 1000⟩] [] []
      = processSyncQueue (fun _ => HubStatus.retryableError) 1000 2 1
          ([⟨2, 1000⟩] ++ [⟨1, 1000⟩]) ([] ++ [1]) [] :=
  (sendSyncData_queue_step (fun _ => HubStatus.retryableError) 1000 2 0
    ⟨1, 1000⟩ [⟨2, 1000⟩] [] []).2.1 (by decide) rfl (by decide)

/-- The hub outcome sequence used in the C1 counterexample: the first POST
of the tick fails transiently, every later one succeeds. -/
def statusFailFirst : Nat → HubStatus :=
  fun i => if i = 0 then HubStatus.retryableError else HubStatus.ok

/-- **C1 counterexample**: with queued payload 1 and fresh payload 2 (both
recent), the first send (payload 1) fails transiently, yet the tick goes on
to send payload 2 and then payload 1 again: the POST sequence is
1, 2, 1 and the hub accepts 2 before 1 — the claim's "no further queued
payloads are processed in that tick" and "payloads are always sent in
creation order" are both false. -/
theorem sendSyncData_continues_after_failure :
    sendSyncData statusFailFirst 1000 [⟨1, 1000⟩] ⟨2, 1000⟩ 5
      = ⟨[], [1, 2, 1], [2, 1]⟩
    ∧ ([2, 1] : List Nat) ≠ [1, 2] := by
  refine ⟨by decide, by decide⟩

/-! ## Log-file queues and uploads -/

/-- `rotateFile` (part of the request logger): close and enqueue the
current file; on a full channel the oldest completed file is deleted to
admit the rotated one (deleting the rotated file itself only in the
unreachable empty-but-full case).  Returns the new state and the deleted
file ids. -/
def rotateFile (st : RequestLoggerState) : RequestLoggerState × List Nat :=
  match st.currentFile with
  | none => (st, [])
  | some f =>
      if st.files.length < maxFilesC then
        ({ st with files := st.files ++ [f], currentFile := none }, [])
      else
        match st.files with
        | [] => ({ st with currentFile := none }, [f.uuid])
        | old :: rest =>
            ({ st with files := rest ++ [f], currentFile := none }, [old.uuid])

/-- `RetryFileLater`: re-enqueue at the back, or delete when full. -/
def retryFileLater (st : RequestLoggerState) (f : TempGzipFile) :
    RequestLoggerState × List Nat :=
  if st.files.length < maxFilesC then ({ st with files := st.files ++ [f] }, [])
  else (st, [f.uuid])

/-- `Clear`: drop all pending writes, rotate the open file, then delete
every completed file. -/
def clearLogger (st : RequestLoggerState) : RequestLoggerState × List Nat :=
  let st1 := { st with pendingWrites := ([] : List RequestLogItem) }
  let r := rotateFile st1
  ({ r.1 with files := [] }, r.2 ++ r.1.files.map TempGzipFile.uuid)

/-- `SuspendFor`: set the suspension deadline and purge all buffered
state. -/
def suspendFor (now duration : Nat) (st : RequestLoggerState) :
    RequestLoggerState × List Nat :=
  clearLogger { st with suspendUntil := some (now + duration) }

/-- Client state for one sync tick: the enabled flag (cleared by an
invalid-client-id response), the metrics payload queue, and the request
logger. -/
structure ClientState where
  enabled : Bool
  syncQueue : List SyncPayload
  logger : RequestLoggerState
deriving Repr

/-- Result of the log-upload concern of a tick. -/
structure LogSendResult where
  client : ClientState
  uploaded : List Nat
  deleted : List Nat
deriving Repr

/-- The upload loop of `sendLogData` (lines 324-358), at most 10 files per
tick: pop a completed file and POST it; a retryable failure hands the file
back (`RetryFileLater`) and stops; payment-required deletes the file,
suspends the logger for one hour and stops; any other outcome deletes the
file and continues (an invalid-client-id response also disables the
client). -/
def sendLogDataLoop (status : Nat → HubStatus) (now : Nat) :
    Nat → Nat → ClientState → List Nat → List Nat → LogSendResult
  | 0, _, cs, up, del => ⟨cs, up, del⟩
  | rem + 1, i, cs, up, del =>
      match cs.logger.files with
      | [] => ⟨cs, up, del⟩
      | f :: rest =>
          let lg := { cs.logger with files := rest }
          match status i with
          | .retryableError =>
              let r := retryFileLater lg f
              ⟨{ cs with logger := r.1 }, up ++ [f.uuid], del ++ r.2⟩
          | .paymentRequired =>
              let r := suspendFor now 3600 lg
              ⟨{ cs with logger := r.1 }, up ++ [f.uuid], del ++ [f.uuid] ++ r.2⟩
          | .invalidClientId =>
              sendLogDataLoop status now rem (i + 1)
                { cs with enabled := false, logger := lg }
                (up ++ [f.uuid]) (del ++ [f.uuid])
          | _ =>
              sendLogDataLoop status now rem (i + 1) { cs with logger := lg }
                (up ++ [f.uuid]) (del ++ [f.uuid])

/-- `sendLogData` (lines 315-361): rotate the active file, then upload. -/
def sendLogData (status : Nat → HubStatus) (now : Nat) (cs : ClientState) :
    LogSendResult :=
  let r := rotateFile cs.logger
  sendLogDataLoop status now 10 0 { cs with logger := r.1 } [] r.2

theorem rotateFile_currentFile_none (st : RequestLoggerState) :
    (rotateFile st).1.currentFile = none := by
  unfold rotateFile
  cases h : st.currentFile with
  | none => simpa using h
  | some f =>
      cases hfs : st.files with
      | nil => simp [maxFilesC]
      | cons old rest =>
          split <;> first
            | (split <;> rfl)
            | simp_all

theorem suspendFor_spec (now duration : Nat) (st : RequestLoggerState)
    (h : st.currentFile = none) :
    suspendFor now duration st
      = ({ st with
           suspendUntil := some (now + duration)
           pendingWrites := []
           files := [] }, st.files.map TempGzipFile.uuid) := by
  unfold suspendFor clearLogger rotateFile
  simp [h]

theorem sendLogDataLoop_payment (status : Nat → HubStatus) (now rem i : Nat)
    (cs : ClientState) (up del : List Nat) (f : TempGzipFile)
    (rest : List TempGzipFile) (hfiles : cs.logger.files = f :: rest)
    (hstatus : status i = HubStatus.paymentRequired) :
    sendLogDataLoop status now (rem + 1) i cs up del
      = ⟨{ cs with logger :=
            (suspendFor now 3600 { cs.logger with files := rest }).1 },
         up ++ [f.uuid],
         del ++ [f.uuid]
           ++ (suspendFor now 3600 { cs.logger with files := rest }).2⟩ := by
  simp only [sendLogDataLoop, hfiles, hstatus]

/-- **C8**: when the first log upload of a tick draws a payment-required
response, the in-flight file is deleted, the logger is suspended for one
hour with all pending records and completed files purged, no further file
is uploaded this tick (the remaining queued files are deleted by the
purge), new records are rejected for the whole window, and the metrics
side is untouched (client stays enabled, sync queue unchanged). -/
theorem paymentRequired_suspends_logger (status : Nat → HubStatus) (now : Nat)
    (cs : ClientState) (f : TempGzipFile) (rest : List TempGzipFile)
    (hfiles : (rotateFile cs.logger).1.files = f :: rest)
    (hstatus : status 0 = HubStatus.paymentRequired) :
    (sendLogData status now cs).client.logger.suspendUntil = some (now + 3600)
    ∧ (sendLogData status now cs).client.logger.pendingWrites = []
    ∧ (sendLogData status now cs).client.logger.files = []
    ∧ (sendLogData status now cs).client.logger.currentFile = none
    ∧ (sendLogData status now cs).uploaded = [f.uuid]
    ∧ f.uuid ∈ (sendLogData status now cs).deleted
    ∧ (∀ g ∈ rest, g.uuid ∈ (sendLogData status now cs).deleted)
    ∧ (sendLogData status now cs).client.enabled = cs.enabled
    ∧ (sendLogData status now cs).client.syncQueue = cs.syncQueue
    ∧ (∀ t, t < now + 3600 → ∀ cfg uuid req resp err stk,
        logRequest cfg t (sendLogData status now cs).client.logger uuid req
          resp err stk = (sendLogData status now cs).client.logger) := by
  have hcur : (rotateFile cs.logger).1.currentFile = none :=
    rotateFile_currentFile_none cs.logger
  have hsusp := suspendFor_spec now 3600
    { (rotateFile cs.logger).1 with files := rest } hcur
  have hstep : sendLogData status now cs
      = ⟨{ cs with logger :=
            { (rotateFile cs.logger).1 with
              suspendUntil := some (now + 3600)
              pendingWrites := []
              files := [] } },
         [f.uuid],
         (rotateFile cs.logger).2 ++ [f.uuid] ++ rest.map TempGzipFile.uuid⟩ := by
    unfold sendLogData
    rw [show (10 : Nat) = 9 + 1 from rfl]
    rw [sendLogDataLoop_payment status now 9 0 _ [] _ f rest hfiles hstatus]
    rw [hsusp]
    simp [hcur]
  rw [hstep]
  refine ⟨rfl, rfl, rfl, hcur, rfl, ?_, ?_, rfl, rfl, ?_⟩
  · simp
  · intro g hg
    simp only [LogSendResult.deleted]
    rw [List.mem_append]
    exact Or.inr (List.mem_map_of_mem TempGzipFile.uuid hg)
  · intro t ht cfg uuid req resp err stk
    unfold logRequest
    have hs : isSuspendedAt t
        { (rotateFile cs.logger).1 with
          suspendUntil := some (now + 3600)
          pendingWrites := []
          files := ([] : List TempGzipFile) } = true := by
      simp [isSuspendedAt, ht]
    simp [hs]

/-- Concrete client with two completed log files, for the C8 witness. -/
def csTwoFiles : ClientState where
  enabled := true
  syncQueue := []
  logger :=
    { enabled := true
      suspendUntil := none
      pendingWrites := []
      currentFile := none
      files := [⟨11⟩, ⟨12⟩] }

/-- The hub that always answers payment-required. -/
def statusPayment : Nat → HubStatus := fun _ => HubStatus.paymentRequired

/-- **C8 witness**: payment-required on the first upload suspends the
logger until `now + 3600`, uploads only the first file, deletes the queued
second file, and leaves the client enabled with its sync queue intact. -/
theorem paymentRequired_suspends_logger_witness :
    (sendLogData statusPayment 100 csTwoFiles).client.logger.suspendUntil
        = some 3700
    ∧ (sendLogData statusPayment 100 csTwoFiles).client.logger.files = []
    ∧ (sendLogData statusPayment 100 csTwoFiles).uploaded = [11]
    ∧ (12 : Nat) ∈ (sendLogData statusPayment 100 csTwoFiles).deleted
    ∧ (sendLogData statusPayment 100 csTwoFiles).client.enabled = true := by
  have h := paymentRequired_suspends_logger statusPayment 100 csTwoFiles
    ⟨11⟩ [⟨12⟩] rfl rfl
  exact ⟨h.1, h.2.2.1, h.2.2.2.2.1,
    h.2.2.2.2.2.2.1 ⟨12⟩ (by simp), h.2.2.2.2.2.2.2.1⟩

/-- **C7 (amended)**: the pending-write queue and the completed-file queue
evict their OLDEST element to admit the newest on overflow; the sync
payload channel instead silently drops the NEWLY created payload when full
(the error return is discarded by every caller), and a failed payload is
dropped rather than re-enqueued when the channel is full; in all cases the
loss is silent and bounded and no crash occurs. -/
theorem queue_overflow_behavior (x : RequestLogItem) (q : List RequestLogItem)
    (cur g : TempGzipFile) (gs : List TempGzipFile)
    (en : Bool) (su : Option Nat) (pw : List RequestLogItem)
    (p : SyncPayload) (sq : List SyncPayload) :
    (q.length = maxPendingWrites →
      pushEvictOldest maxPendingWrites q x = q.tail ++ [x])
  ∧ (q.length < maxPendingWrites →
      pushEvictOldest maxPendingWrites q x = q ++ [x])
  ∧ ((g :: gs).length = maxFilesC →
      rotateFile ⟨en, su, pw, some cur, g :: gs⟩
        = (⟨en, su, pw, none, gs ++ [cur]⟩, [g.uuid]))
  ∧ (sq.length = maxQueueSize → ∀ fuel status now,
      sendSyncData status now sq p fuel = ⟨sq, [], []⟩) := by
  refine ⟨?_, ?_, ?_, ?_⟩
  · intro hfull
    unfold pushEvictOldest
    have hnot : ¬(q.length < maxPendingWrites) := by omega
    rw [if_neg hnot]
    cases q with
    | nil => simp [maxPendingWrites] at hfull
    | cons a as => rfl
  · intro hlt
    unfold pushEvictOldest
    rw [if_pos hlt]
  · intro hfull
    unfold rotateFile
    have hnot : ¬((g :: gs).length < maxFilesC) := by omega
    simp only [List.length_cons] at hnot
    simp [hnot]
  · intro hfull fuel status now
    unfold sendSyncData enqueueSyncPayload
    have hnot : ¬(sq.length < maxQueueSize) := by omega
    simp [hnot]

/-- The hub that always accepts. -/
def statusAllOk : Nat → HubStatus := fun _ => HubStatus.ok

/-- **C7 witness**: a full pending-write queue evicts its oldest record; a
full file queue evicts its oldest file; a below-capacity queue appends. -/
theorem queue_overflow_behavior_witness :
    pushEvictOldest maxPendingWrites
        (List.replicate 100 (buildLogItem cfgNone 7 reqItems resp0 none ""))
        (buildLogItem cfgNone 8 reqItems resp0 none "")
      = (List.replicate 100 (buildLogItem cfgNone 7 reqItems resp0 none "")).tail
          ++ [buildLogItem cfgNone 8 reqItems resp0 none ""]
    ∧ rotateFile ⟨true, none, [], some ⟨99⟩,
          ⟨3⟩ :: List.replicate 49 (⟨3⟩ : TempGzipFile)⟩
      = (⟨true, none, [], none,
          List.replicate 49 (⟨3⟩ : TempGzipFile) ++ [⟨99⟩]⟩, [3]) := by
  constructor
  · exact (queue_overflow_behavior (buildLogItem cfgNone 8 reqItems resp0 none "")
      (List.replicate 100 (buildLogItem cfgNone 7 reqItems resp0 none ""))
      ⟨0⟩ ⟨0⟩ [] true none [] ⟨0, 0⟩ []).1 (by simp [maxPendingWrites])
  · exact (queue_overflow_behavior
      (buildLogItem cfgNone 8 reqItems resp0 none "") []
      ⟨99⟩ ⟨3⟩ (List.replicate 49 (⟨3⟩ : TempGzipFile)) true none [] ⟨0, 0⟩ []).2.2.1
      (by simp [maxFilesC])

/-- **C7 counterexample**: when the sync-payload channel is full, the
NEWLY arriving payload is dropped and the queue is left unchanged — the
oldest element is not evicted and the newcomer is not admitted,
contradicting the claimed drop-oldest policy for this queue. -/
theorem syncQueue_drops_newest :
    sendSyncData statusAllOk 0 (List.replicate 400 (⟨0, 0⟩ : SyncPayload))
        ⟨1, 0⟩ 5
      = ⟨List.replicate 400 (⟨0, 0⟩ : SyncPayload), [], []⟩
    ∧ (⟨1, 0⟩ : SyncPayload) ∉ List.replicate 400 (⟨0, 0⟩ : SyncPayload) := by
  constructor
  · have h := (queue_overflow_behavior
      (buildLogItem cfgNone 8 reqItems resp0 none "") [] ⟨0⟩ ⟨0⟩ [] true none []
      (⟨1, 0⟩ : SyncPayload) (List.replicate 400 (⟨0, 0⟩ : SyncPayload))).2.2.2
      (by rw [List.length_replicate]; rfl)
    exact h 5 statusAllOk 0
  · intro hmem
    have h2 := (List.mem_replicate.mp hmem).2
    exact absurd (congrArg SyncPayload.uuid h2) (by decide)

end Apitally
